import Mathlib

set_option maxRecDepth 40000

/-!
Verification of the on-chain journal parser and attestation verifier of the
`automata-slsa-sigstore-verifier` repository.

The Solidity sources embedded here:
* `VerificationResultParser` (Types.sol): `parseVerificationResultBytes`,
  `_parseHeader`, `_extractAbiData`, `_decodeAbiData`, `_toDigestAlgorithm`;
* the legacy `VerificationResultParser` (7-field tuple, no proof-type header);
* `SigstoreAttestationVerifier`: `setZkCoProcessorConfig`,
  `verifyAndAttestWithZKProof`.

Bytes are lists of naturals below 256; EVM words are naturals below 2^256.
-/

namespace SigstoreVerifier

/-- A well-formed byte string: every entry fits in one byte. -/
def ValidBytes (bs : List Nat) : Prop := ∀ b ∈ bs, b < 256

instance : DecidablePred ValidBytes := fun bs =>
  inferInstanceAs (Decidable (∀ b ∈ bs, b < 256))

/-- Big-endian value of a byte list. -/
def beVal (bs : List Nat) : Nat := bs.foldl (fun a b => 256 * a + b) 0

/-- `n`-byte big-endian encoding of `v % 256^n`. -/
def beBytes : Nat → Nat → List Nat
  | 0, _ => []
  | n + 1, v => beBytes n (v / 256) ++ [v % 256]

theorem length_beBytes (n v : Nat) : (beBytes n v).length = n := by
  induction n generalizing v with
  | zero => rfl
  | succ n ih => simp [beBytes, ih]

theorem validBytes_beBytes (n v : Nat) : ValidBytes (beBytes n v) := by
  induction n generalizing v with
  | zero => intro b hb; simp [beBytes] at hb
  | succ n ih =>
      intro b hb
      simp only [beBytes, List.mem_append, List.mem_singleton] at hb
      rcases hb with hb | hb
      · exact ih _ _ hb
      · subst hb; exact Nat.mod_lt _ (by norm_num)

theorem beVal_foldl (bs : List Nat) (i : Nat) :
    bs.foldl (fun a b => 256 * a + b) i = i * 256 ^ bs.length + beVal bs := by
  induction bs generalizing i with
  | nil => simp [beVal]
  | cons x bs ih =>
      simp only [List.foldl_cons, List.length_cons, beVal]
      rw [ih (256 * i + x), ih (256 * 0 + x)]
      ring

theorem beVal_append (a b : List Nat) :
    beVal (a ++ b) = beVal a * 256 ^ b.length + beVal b := by
  simp only [beVal, List.foldl_append]
  rw [beVal_foldl b (a.foldl (fun a b => 256 * a + b) 0)]
  rfl

theorem beVal_lt (bs : List Nat) (h : ValidBytes bs) :
    beVal bs < 256 ^ bs.length := by
  induction bs with
  | nil => simp [beVal]
  | cons x bs ih =>
      have hx : x < 256 := h x (List.mem_cons_self x bs)
      have hb : beVal bs < 256 ^ bs.length :=
        ih (fun b hb => h b (List.mem_cons_of_mem x hb))
      have : beVal (x :: bs) = x * 256 ^ bs.length + beVal bs := by
        have := beVal_append [x] bs
        simpa [beVal] using this
      rw [this, List.length_cons, pow_succ]
      calc x * 256 ^ bs.length + beVal bs
          < x * 256 ^ bs.length + 256 ^ bs.length := by omega
        _ = (x + 1) * 256 ^ bs.length := by ring
        _ ≤ 256 * 256 ^ bs.length := by
            exact Nat.mul_le_mul_right _ (by omega)
        _ = 256 ^ bs.length * 256 := by ring

theorem beVal_beBytes (n v : Nat) : beVal (beBytes n v) = v % 256 ^ n := by
  induction n generalizing v with
  | zero => simp [beBytes, beVal, Nat.mod_one]
  | succ n ih =>
      rw [beBytes, beVal_append, ih]
      simp only [List.length_singleton, pow_one]
      have : beVal [v % 256] = v % 256 := by simp [beVal]
      rw [this, pow_succ, Nat.mul_comm (256 ^ n) 256, Nat.mod_mul]
      ring

theorem beVal_beBytes_of_lt {n v : Nat} (h : v < 256 ^ n) :
    beVal (beBytes n v) = v := by
  rw [beVal_beBytes, Nat.mod_eq_of_lt h]

theorem beVal_replicate_zero (n : Nat) : beVal (List.replicate n 0) = 0 := by
  induction n with
  | zero => rfl
  | succ n ih =>
      have : List.replicate (n + 1) 0 = List.replicate n 0 ++ [0] := by
        rw [← List.replicate_succ']
      rw [this, beVal_append, ih]
      simp [beVal]

/-! ### Ethereum ABI reading primitives (memory `abi.decode` semantics) -/

/-- The byte segment `[off, off+n)` of `d`. -/
def segAt (d : List Nat) (off n : Nat) : List Nat := (d.drop off).take n

/-- Load one 32-byte big-endian word starting at byte `off`; fails when the
word does not lie inside the buffer. -/
def readWord (d : List Nat) (off : Nat) : Option Nat :=
  if off + 32 ≤ d.length then some (beVal (segAt d off 32)) else none

/-- Load a word and validate that it fits `width` bytes, exactly as solc's
`abi.decode` value validators do for `uintN` components. -/
def readUint (width : Nat) (d : List Nat) (off : Nat) : Option Nat :=
  match readWord d off with
  | some w => if w < 256 ^ width then some w else none
  | none => none

/-- Decode a dynamic `bytes`/`string` whose length word sits at byte `off`. -/
def readDynBytes (d : List Nat) (off : Nat) : Option (List Nat) :=
  match readWord d off with
  | some L => if off + 32 + L ≤ d.length then some (segAt d (off + 32) L) else none
  | none => none

/-- Split a buffer into consecutive 32-byte big-endian words, with an
explicit fuel bound so that the recursion is structural. -/
def wordsFromN : Nat → List Nat → List Nat
  | 0, _ => []
  | n + 1, bs =>
      if bs = [] then [] else beVal (bs.take 32) :: wordsFromN n (bs.drop 32)

/-- Split a buffer into consecutive 32-byte big-endian words. -/
def wordsFrom (bs : List Nat) : List Nat := wordsFromN bs.length bs

/-- Decode a dynamic `bytes32[]` whose length word sits at byte `off`. -/
def readWordArray (d : List Nat) (off : Nat) : Option (List Nat) :=
  match readWord d off with
  | some L =>
      if off + 32 + 32 * L ≤ d.length then
        some (wordsFrom (segAt d (off + 32) (32 * L)))
      else none
  | none => none

/-- Follow a head-offset word at `headOff` and decode the `bytes` there. -/
def readDynBytesHead (d : List Nat) (headOff : Nat) : Option (List Nat) :=
  match readWord d headOff with
  | some o => readDynBytes d o
  | none => none

/-- Follow a head-offset word at `headOff` and decode the `bytes32[]` there. -/
def readWordArrayHead (d : List Nat) (headOff : Nat) : Option (List Nat) :=
  match readWord d headOff with
  | some o => readWordArray d o
  | none => none

theorem segAt_shift (xs ys : List Nat) (j n : Nat) :
    segAt (xs ++ ys) (xs.length + j) n = segAt ys j n := by
  simp [segAt, List.drop_append]

theorem readWord_shift (xs ys : List Nat) (j : Nat) :
    readWord (xs ++ ys) (xs.length + j) = readWord ys j := by
  unfold readWord
  rw [segAt_shift, List.length_append]
  by_cases h : j + 32 ≤ ys.length
  · rw [if_pos (by omega), if_pos h]
  · rw [if_neg (by omega), if_neg h]

theorem readDynBytes_shift (xs ys : List Nat) (j : Nat) :
    readDynBytes (xs ++ ys) (xs.length + j) = readDynBytes ys j := by
  unfold readDynBytes
  rw [readWord_shift]
  cases readWord ys j with
  | none => rfl
  | some L =>
      simp only
      rw [List.length_append]
      have hseg : segAt (xs ++ ys) (xs.length + j + 32) L = segAt ys (j + 32) L := by
        have := segAt_shift xs ys (j + 32) L
        rw [← this]
        ring_nf
      by_cases h : j + 32 + L ≤ ys.length
      · rw [if_pos (by omega), if_pos h, hseg]
      · rw [if_neg (by omega), if_neg h]

theorem readWordArray_shift (xs ys : List Nat) (j : Nat) :
    readWordArray (xs ++ ys) (xs.length + j) = readWordArray ys j := by
  unfold readWordArray
  rw [readWord_shift]
  cases readWord ys j with
  | none => rfl
  | some L =>
      simp only
      rw [List.length_append]
      have hseg : segAt (xs ++ ys) (xs.length + j + 32) (32 * L)
          = segAt ys (j + 32) (32 * L) := by
        have := segAt_shift xs ys (j + 32) (32 * L)
        rw [← this]
        ring_nf
      by_cases h : j + 32 + 32 * L ≤ ys.length
      · rw [if_pos (by omega), if_pos h, hseg]
      · rw [if_neg (by omega), if_neg h]

/-! ### ABI tail encodings (the canonical encoder of spec §6.4) -/

/-- Round `n` up to the next multiple of 32. -/
def pad32 (n : Nat) : Nat := ((n + 31) / 32) * 32

theorem le_pad32 (n : Nat) : n ≤ pad32 n := by unfold pad32; omega

theorem pad32_lt (n : Nat) : pad32 n < n + 32 := by unfold pad32; omega

/-- Zero-pad a byte string on the right to a multiple of 32 bytes. -/
def padRight (bs : List Nat) : List Nat :=
  bs ++ List.replicate (pad32 bs.length - bs.length) 0

theorem length_padRight (bs : List Nat) : (padRight bs).length = pad32 bs.length := by
  have := le_pad32 bs.length
  simp [padRight]
  omega

/-- ABI tail encoding of a dynamic `bytes`/`string`: length word, then the
zero-padded content. -/
def encBytes (bs : List Nat) : List Nat := beBytes 32 bs.length ++ padRight bs

theorem length_encBytes (bs : List Nat) :
    (encBytes bs).length = 32 + pad32 bs.length := by
  simp [encBytes, length_beBytes, length_padRight]

/-- ABI tail encoding of a `bytes32[]`: length word, then the words. -/
def encWordArray (ws : List Nat) : List Nat :=
  beBytes 32 ws.length ++ (ws.map (beBytes 32)).flatten

theorem length_flatten_beBytes (ws : List Nat) :
    ((ws.map (beBytes 32)).flatten).length = 32 * ws.length := by
  induction ws with
  | nil => simp
  | cons w ws ih =>
      simp only [List.map_cons, List.flatten_cons, List.length_append,
        length_beBytes, ih, List.length_cons]
      ring

theorem length_encWordArray (ws : List Nat) :
    (encWordArray ws).length = 32 + 32 * ws.length := by
  simp only [encWordArray, List.length_append, length_beBytes,
    length_flatten_beBytes]

/-! ### Reading back encoded segments -/

theorem take_length_append {α : Type} (a rest : List α) (n : Nat)
    (h : a.length = n) : (a ++ rest).take n = a := by
  subst h
  simp

theorem drop_length_append {α : Type} (a rest : List α) (n : Nat)
    (h : a.length = n) : (a ++ rest).drop n = rest := by
  subst h
  simp

theorem take32_beBytes32 (v : Nat) (rest : List Nat) :
    (beBytes 32 v ++ rest).take 32 = beBytes 32 v :=
  take_length_append _ _ _ (length_beBytes 32 v)

theorem drop32_beBytes32 (v : Nat) (rest : List Nat) :
    (beBytes 32 v ++ rest).drop 32 = rest :=
  drop_length_append _ _ _ (length_beBytes 32 v)

theorem readWord_beBytes32 (v : Nat) (rest : List Nat) (hv : v < 256 ^ 32) :
    readWord (beBytes 32 v ++ rest) 0 = some v := by
  unfold readWord
  rw [if_pos (by rw [List.length_append, length_beBytes]; omega)]
  simp only [segAt, List.drop_zero, take32_beBytes32]
  rw [beVal_beBytes_of_lt hv]

/-- Reading the `k`-th 32-byte word of a concatenated word list. -/
theorem readWord_headWords (ws : List Nat) (rest : List Nat) (k : Nat)
    (hk : k < ws.length) (hw : ∀ w ∈ ws, w < 256 ^ 32) :
    readWord ((ws.map (beBytes 32)).flatten ++ rest) (32 * k)
      = some (ws.getD k 0) := by
  induction ws generalizing k with
  | nil => simp at hk
  | cons w ws ih =>
      cases k with
      | zero =>
          simp only [List.map_cons, List.flatten_cons, List.append_assoc,
            Nat.mul_zero, List.getD_cons_zero]
          exact readWord_beBytes32 w _ (hw w (List.mem_cons_self w ws))
      | succ k =>
          have hoff : 32 * (k + 1) = (beBytes 32 w).length + 32 * k := by
            rw [length_beBytes]; ring
          simp only [List.map_cons, List.flatten_cons, List.append_assoc, hoff,
            readWord_shift, List.getD_cons_succ]
          exact ih k (by simpa using hk)
            (fun x hx => hw x (List.mem_cons_of_mem w hx))

theorem readDynBytes_encBytes (bs rest : List Nat) (h : bs.length < 256 ^ 32) :
    readDynBytes (encBytes bs ++ rest) 0 = some bs := by
  have hw : readWord (encBytes bs ++ rest) 0 = some bs.length := by
    simp only [encBytes, List.append_assoc]
    exact readWord_beBytes32 _ _ h
  have hle : 0 + 32 + bs.length ≤ (encBytes bs ++ rest).length := by
    rw [List.length_append, length_encBytes]
    have := le_pad32 bs.length
    omega
  simp only [readDynBytes, hw]
  rw [if_pos hle]
  have hseg : segAt (encBytes bs ++ rest) (0 + 32) bs.length = bs := by
    simp only [encBytes, List.append_assoc, segAt, Nat.zero_add]
    rw [drop32_beBytes32]
    simp only [padRight, List.append_assoc]
    rw [List.take_append_of_le_length (le_refl _),
      List.take_of_length_le (le_refl _)]
  rw [hseg]

theorem readDynBytes_encBytes_last (bs : List Nat) (h : bs.length < 256 ^ 32) :
    readDynBytes (encBytes bs) 0 = some bs := by
  have := readDynBytes_encBytes bs [] h
  simpa using this

theorem wordsFrom_nil : wordsFrom [] = [] := rfl

theorem wordsFromN_encWords (ws : List Nat) (n : Nat) (hn : ws.length ≤ n)
    (hw : ∀ w ∈ ws, w < 256 ^ 32) :
    wordsFromN n ((ws.map (beBytes 32)).flatten) = ws := by
  induction ws generalizing n with
  | nil =>
      cases n with
      | zero => rfl
      | succ m => simp [wordsFromN]
  | cons w ws ih =>
      cases n with
      | zero => simp at hn
      | succ m =>
          have hne : (((w :: ws).map (beBytes 32)).flatten) ≠ [] := by
            intro hcon
            have : (((w :: ws).map (beBytes 32)).flatten).length = 0 := by
              rw [hcon]; rfl
            rw [length_flatten_beBytes] at this
            simp at this
          rw [wordsFromN, if_neg hne]
          simp only [List.map_cons, List.flatten_cons]
          rw [take32_beBytes32, drop32_beBytes32,
            beVal_beBytes_of_lt (hw w (List.mem_cons_self w ws)),
            ih m (Nat.le_of_succ_le_succ hn)
              (fun x hx => hw x (List.mem_cons_of_mem w hx))]

theorem wordsFrom_encWords (ws : List Nat) (hw : ∀ w ∈ ws, w < 256 ^ 32) :
    wordsFrom ((ws.map (beBytes 32)).flatten) = ws := by
  unfold wordsFrom
  exact wordsFromN_encWords ws _ (by rw [length_flatten_beBytes]; omega) hw

theorem readWordArray_encWordArray (ws rest : List Nat)
    (hlen : ws.length < 256 ^ 32) (hw : ∀ w ∈ ws, w < 256 ^ 32) :
    readWordArray (encWordArray ws ++ rest) 0 = some ws := by
  have hword : readWord (encWordArray ws ++ rest) 0 = some ws.length := by
    simp only [encWordArray, List.append_assoc]
    exact readWord_beBytes32 _ _ hlen
  have hle : 0 + 32 + 32 * ws.length ≤ (encWordArray ws ++ rest).length := by
    rw [List.length_append, length_encWordArray]
    omega
  simp only [readWordArray, hword]
  rw [if_pos hle]
  have hseg : segAt (encWordArray ws ++ rest) (0 + 32) (32 * ws.length)
      = (ws.map (beBytes 32)).flatten := by
    simp only [encWordArray, List.append_assoc, segAt, Nat.zero_add]
    rw [drop32_beBytes32]
    rw [List.take_append_of_le_length (by rw [length_flatten_beBytes]),
      List.take_of_length_le (by rw [length_flatten_beBytes])]
  rw [hseg, wordsFrom_encWords ws hw]

/-! ### Data model (Types.sol) -/

/-- Hash algorithm identifier: 0 = Unknown, 1 = SHA256, 2 = SHA384. -/
inductive DigestAlgorithm
  | Unknown
  | Sha256
  | Sha384
deriving DecidableEq

/-- Timestamp proof type: 0 = None, 1 = RFC3161 (TSA), 2 = Rekor. -/
inductive TimestampProofType
  | None
  | Rfc3161
  | Rekor
deriving DecidableEq

/-- The custom errors of `VerificationResultParser`; `abiDecodeRevert` stands
for the revert raised inside `abi.decode` on malformed tail data. -/
inductive ParseError
  | invalidDataLength
  | invalidCertificateHashesLength
  | invalidTimestampProofType
  | abiDecodeRevert
deriving DecidableEq

deriving instance DecidableEq for Except

/-- `struct VerificationResult` of Types.sol. `bytes32` values are naturals
below `2^256`; `bytes`/`string` values are byte lists. -/
structure VerificationResult where
  timestamp : Nat
  timestampProofType : TimestampProofType
  certificateHashes : List Nat
  subjectDigest : List Nat
  subjectDigestAlgorithm : DigestAlgorithm
  oidcIssuer : List Nat
  oidcSubject : List Nat
  oidcWorkflowRef : List Nat
  oidcRepository : List Nat
  oidcEventName : List Nat
  tsaChainHashes : List Nat
  messageImprintAlgorithm : DigestAlgorithm
  messageImprint : List Nat
  rekorLogId : Nat
  rekorLogIndex : Nat
  rekorEntryIndex : Nat
deriving DecidableEq

/-- The 14 raw components produced by the `abi.decode` call inside
`_decodeAbiData`, before enum conversion. -/
structure AbiTail where
  certHashes : List Nat
  subjectDigest : List Nat
  subjectDigestAlgRaw : Nat
  oidcIssuer : List Nat
  oidcSubject : List Nat
  oidcWorkflowRef : List Nat
  oidcRepository : List Nat
  oidcEventName : List Nat
  tsaChainHashes : List Nat
  messageImprintAlgRaw : Nat
  messageImprint : List Nat
  rekorLogId : Nat
  rekorLogIndex : Nat
  rekorEntryIndex : Nat
deriving DecidableEq

namespace VerificationResultParser

/-- `_toDigestAlgorithm` of Types.sol. -/
def _toDigestAlgorithm (value : Nat) : DigestAlgorithm :=
  if value = 1 then .Sha256
  else if value = 2 then .Sha384
  else .Unknown

/-- `_parseHeader` of Types.sol: load the first 32-byte word
(`mload(add(data, 32))`), take `shr(192, ...)` as the timestamp and byte 8
(`and(shr(184, ...), 0xff)`) as the proof-type tag. -/
def _parseHeader (data : List Nat) :
    Except ParseError (Nat × TimestampProofType) :=
  let rawData := beVal (data.take 32)
  let signingTime := rawData / 2 ^ 192
  let proofTypeRaw := rawData / 2 ^ 184 % 256
  if proofTypeRaw = 0 then .ok (signingTime, .None)
  else if proofTypeRaw = 1 then .ok (signingTime, .Rfc3161)
  else if proofTypeRaw = 2 then .ok (signingTime, .Rekor)
  else .error .invalidTimestampProofType

/-- `_extractAbiData` of Types.sol: allocate a buffer of length
`data.length - 41` and copy from byte 41 onwards in 32-byte chunks. The
copy loop exits only when its counter is exactly zero and decrements it
with the wrapping `sub(remaining, 32)`, so it terminates precisely when
`data.length - 41` is a multiple of 32 — `copyLoopSteps` below models
this loop; every canonical journal is aligned this way, an ABI tuple
encoding being a whole number of words. On terminating executions the
`bytes` value produced is the suffix of `data` from offset 41, which this
definition models; on misaligned lengths the source loop instead runs
unboundedly past both buffers until out of gas. -/
def _extractAbiData (data : List Nat) : List Nat := data.drop 41

/-- EVM `sub(r, 32)`: subtraction wrapping modulo `2^256`. -/
def evmSub32 (r : Nat) : Nat := (r + (2 ^ 256 - 32)) % 2 ^ 256

/-- The copy loop of `_extractAbiData`:
`for {} gt(remaining, 0) {} { ... remaining := sub(remaining, 32) }`,
run with explicit fuel. `some n` means the loop exits after `n`
iterations within the given fuel; `none` means it is still running. -/
def copyLoopSteps : Nat → Nat → Option Nat
  | 0, r => if r = 0 then some 0 else none
  | f + 1, r =>
      if r = 0 then some 0
      else
        match copyLoopSteps f (evmSub32 r) with
        | some n => some (n + 1)
        | none => none

/-- The copy loop started at counter `L` eventually exits. -/
def copyLoopTerminates (L : Nat) : Prop := ∃ f n, copyLoopSteps f L = some n

/-- The `abi.decode` call of `_decodeAbiData`: tuple type
`(bytes32[], bytes, uint8, string, string, string, string, string,
bytes32[], uint8, bytes, bytes32, uint64, uint64)`, head words at byte
offsets 0, 32, ..., 416. -/
def _decodeAbiData (abiData : List Nat) : Option AbiTail := do
  let certHashes ← readWordArrayHead abiData 0
  let subjectDigest ← readDynBytesHead abiData 32
  let subjectDigestAlgRaw ← readUint 1 abiData 64
  let oidcIssuer ← readDynBytesHead abiData 96
  let oidcSubject ← readDynBytesHead abiData 128
  let oidcWorkflowRef ← readDynBytesHead abiData 160
  let oidcRepository ← readDynBytesHead abiData 192
  let oidcEventName ← readDynBytesHead abiData 224
  let tsaChainHashes ← readWordArrayHead abiData 256
  let messageImprintAlgRaw ← readUint 1 abiData 288
  let messageImprint ← readDynBytesHead abiData 320
  let rekorLogId ← readWord abiData 352
  let rekorLogIndex ← readUint 8 abiData 384
  let rekorEntryIndex ← readUint 8 abiData 416
  pure ⟨certHashes, subjectDigest, subjectDigestAlgRaw, oidcIssuer,
    oidcSubject, oidcWorkflowRef, oidcRepository, oidcEventName,
    tsaChainHashes, messageImprintAlgRaw, messageImprint, rekorLogId,
    rekorLogIndex, rekorEntryIndex⟩

/-- The field assignments of `_decodeAbiData` into the result struct. -/
def buildResult (ts : Nat) (pt : TimestampProofType) (t : AbiTail) :
    VerificationResult where
  timestamp := ts
  timestampProofType := pt
  certificateHashes := t.certHashes
  subjectDigest := t.subjectDigest
  subjectDigestAlgorithm := _toDigestAlgorithm t.subjectDigestAlgRaw
  oidcIssuer := t.oidcIssuer
  oidcSubject := t.oidcSubject
  oidcWorkflowRef := t.oidcWorkflowRef
  oidcRepository := t.oidcRepository
  oidcEventName := t.oidcEventName
  tsaChainHashes := t.tsaChainHashes
  messageImprintAlgorithm := _toDigestAlgorithm t.messageImprintAlgRaw
  messageImprint := t.messageImprint
  rekorLogId := t.rekorLogId
  rekorLogIndex := t.rekorLogIndex
  rekorEntryIndex := t.rekorEntryIndex

/-- `parseVerificationResultBytes` of Types.sol. -/
def parseVerificationResultBytes (data : List Nat) :
    Except ParseError VerificationResult :=
  if data.length < 73 then .error .invalidDataLength
  else
    match _parseHeader data with
    | .error e => .error e
    | .ok (ts, pt) =>
        match _decodeAbiData (_extractAbiData data) with
        | none => .error .abiDecodeRevert
        | some t =>
            let result := buildResult ts pt t
            if result.certificateHashes.length < 2 then
              .error .invalidCertificateHashesLength
            else .ok result

end VerificationResultParser

/-! ### Legacy parser (7-field tuple, no proof-type header) -/

/-- The legacy `struct VerificationResult` (timestamp + 7-field tuple). -/
structure LegacyVerificationResult where
  timestamp : Nat
  certificateHashes : List Nat
  subjectDigest : List Nat
  oidcIssuer : List Nat
  oidcSubject : List Nat
  oidcWorkflowRef : List Nat
  oidcRepository : List Nat
  oidcEventName : List Nat
deriving DecidableEq

namespace LegacyVerificationResultParser

/-- The `abi.decode` call of the legacy parser: tuple type
`(bytes32[], bytes, string, string, string, string, string)`. -/
def _decodeAbiData (abiData : List Nat) :
    Option (List Nat × List Nat × List Nat × List Nat × List Nat ×
      List Nat × List Nat) := do
  let certificateHashes ← readWordArrayHead abiData 0
  let subjectDigest ← readDynBytesHead abiData 32
  let oidcIssuer ← readDynBytesHead abiData 64
  let oidcSubject ← readDynBytesHead abiData 96
  let oidcWorkflowRef ← readDynBytesHead abiData 128
  let oidcRepository ← readDynBytesHead abiData 160
  let oidcEventName ← readDynBytesHead abiData 192
  pure (certificateHashes, subjectDigest, oidcIssuer, oidcSubject,
    oidcWorkflowRef, oidcRepository, oidcEventName)

/-- The legacy `parseVerificationResultBytes`: 8-byte big-endian timestamp,
32-byte wrapper, then the 7-field ABI tuple; certificate-hash length check
after decoding. -/
def parseVerificationResultBytes (data : List Nat) :
    Except ParseError LegacyVerificationResult :=
  if data.length < 40 then .error .invalidDataLength
  else
    let signingTime := beVal (data.take 32) / 2 ^ 192
    match _decodeAbiData (data.drop 40) with
    | none => .error .abiDecodeRevert
    | some (certificateHashes, subjectDigest, oidcIssuer, oidcSubject,
        oidcWorkflowRef, oidcRepository, oidcEventName) =>
        if certificateHashes.length < 2 then
          .error .invalidCertificateHashesLength
        else
          .ok ⟨signingTime, certificateHashes, subjectDigest, oidcIssuer,
            oidcSubject, oidcWorkflowRef, oidcRepository, oidcEventName⟩

end LegacyVerificationResultParser

/-! ### Canonical journal encoder -/

/-- Modelled from the spec: the repository's Rust result encoder (component
C10) is not among the provided sources; this is the ABI tuple encoding of
spec §6.4 — standard Ethereum ABI head/tail encoding of the 14 listed
fields in order, head offsets measured from the start of the tuple. -/
def encodeAbiTuple (t : AbiTail) : List Nat :=
  let c := encWordArray t.certHashes
  let sd := encBytes t.subjectDigest
  let s1 := encBytes t.oidcIssuer
  let s2 := encBytes t.oidcSubject
  let s3 := encBytes t.oidcWorkflowRef
  let s4 := encBytes t.oidcRepository
  let s5 := encBytes t.oidcEventName
  let ta := encWordArray t.tsaChainHashes
  let mi := encBytes t.messageImprint
  let oCert := 448
  let oSd := oCert + c.length
  let oS1 := oSd + sd.length
  let oS2 := oS1 + s1.length
  let oS3 := oS2 + s2.length
  let oS4 := oS3 + s3.length
  let oS5 := oS4 + s4.length
  let oTa := oS5 + s5.length
  let oMi := oTa + ta.length
  let head := [oCert, oSd, t.subjectDigestAlgRaw, oS1, oS2, oS3, oS4, oS5,
    oTa, t.messageImprintAlgRaw, oMi, t.rekorLogId, t.rekorLogIndex,
    t.rekorEntryIndex]
  (head.map (beBytes 32)).flatten ++
    (c ++ (sd ++ (s1 ++ (s2 ++ (s3 ++ (s4 ++ (s5 ++ (ta ++ mi))))))))

/-- Modelled from the spec: journal byte layout of §6.4 — 8-byte big-endian
timestamp, 1-byte proof type, 32 zero bytes (reserved ABI tuple head), then
the ABI tuple encoding. -/
def encodeJournalRaw (ts ptRaw : Nat) (t : AbiTail) : List Nat :=
  beBytes 8 ts ++ ([ptRaw] ++ (List.replicate 32 0 ++ encodeAbiTuple t))

/-- Numeric tag of a digest algorithm (its Solidity enum ordinal). -/
def digestAlgorithmRaw : DigestAlgorithm → Nat
  | .Unknown => 0
  | .Sha256 => 1
  | .Sha384 => 2

/-- Numeric tag of a timestamp proof type (its Solidity enum ordinal). -/
def timestampProofTypeRaw : TimestampProofType → Nat
  | .None => 0
  | .Rfc3161 => 1
  | .Rekor => 2

/-- The raw ABI components of a verification result. -/
def abiTailOfResult (r : VerificationResult) : AbiTail where
  certHashes := r.certificateHashes
  subjectDigest := r.subjectDigest
  subjectDigestAlgRaw := digestAlgorithmRaw r.subjectDigestAlgorithm
  oidcIssuer := r.oidcIssuer
  oidcSubject := r.oidcSubject
  oidcWorkflowRef := r.oidcWorkflowRef
  oidcRepository := r.oidcRepository
  oidcEventName := r.oidcEventName
  tsaChainHashes := r.tsaChainHashes
  messageImprintAlgRaw := digestAlgorithmRaw r.messageImprintAlgorithm
  messageImprint := r.messageImprint
  rekorLogId := r.rekorLogId
  rekorLogIndex := r.rekorLogIndex
  rekorEntryIndex := r.rekorEntryIndex

/-- Modelled from the spec: the reference journal encoding of a
`VerificationResult` per §6.4. -/
def encodeJournal (r : VerificationResult) : List Nat :=
  encodeJournalRaw r.timestamp (timestampProofTypeRaw r.timestampProofType)
    (abiTailOfResult r)

/-- Typing constraints of the Solidity struct on the raw ABI components:
`bytes32` words fit 32 bytes, `uint8`/`uint64` components fit their width,
byte strings hold bytes, and dynamic lengths fit `uint64`. -/
def WFAbiTail (t : AbiTail) : Prop :=
  (∀ h ∈ t.certHashes, h < 256 ^ 32) ∧ t.certHashes.length < 2 ^ 64 ∧
  ValidBytes t.subjectDigest ∧ t.subjectDigest.length < 2 ^ 64 ∧
  t.subjectDigestAlgRaw < 256 ∧
  ValidBytes t.oidcIssuer ∧ t.oidcIssuer.length < 2 ^ 64 ∧
  ValidBytes t.oidcSubject ∧ t.oidcSubject.length < 2 ^ 64 ∧
  ValidBytes t.oidcWorkflowRef ∧ t.oidcWorkflowRef.length < 2 ^ 64 ∧
  ValidBytes t.oidcRepository ∧ t.oidcRepository.length < 2 ^ 64 ∧
  ValidBytes t.oidcEventName ∧ t.oidcEventName.length < 2 ^ 64 ∧
  (∀ h ∈ t.tsaChainHashes, h < 256 ^ 32) ∧ t.tsaChainHashes.length < 2 ^ 64 ∧
  t.messageImprintAlgRaw < 256 ∧
  ValidBytes t.messageImprint ∧ t.messageImprint.length < 2 ^ 64 ∧
  t.rekorLogId < 256 ^ 32 ∧ t.rekorLogIndex < 2 ^ 64 ∧
  t.rekorEntryIndex < 2 ^ 64

instance (t : AbiTail) : Decidable (WFAbiTail t) := by
  unfold WFAbiTail
  infer_instance

/-- Typing constraints of the Solidity struct on a `VerificationResult`. -/
def WFResult (r : VerificationResult) : Prop :=
  r.timestamp < 2 ^ 64 ∧ WFAbiTail (abiTailOfResult r)

instance (r : VerificationResult) : Decidable (WFResult r) := by
  unfold WFResult
  infer_instance

/-! ### The ABI decoder inverts the canonical tuple encoder -/

theorem skipDyn (b rest : List Nat) (off j : Nat) (h : off = b.length + j) :
    readDynBytes (b ++ rest) off = readDynBytes rest j := by
  rw [h, readDynBytes_shift]

theorem skipArr (b rest : List Nat) (off j : Nat) (h : off = b.length + j) :
    readWordArray (b ++ rest) off = readWordArray rest j := by
  rw [h, readWordArray_shift]

set_option maxHeartbeats 2000000 in
theorem _decodeAbiData_encodeAbiTuple (t : AbiTail) (hwf : WFAbiTail t) :
    VerificationResultParser._decodeAbiData (encodeAbiTuple t) = some t := by
  obtain ⟨hcw, hcl, hsdb, hsdl, ha1, hs1b, hs1l, hs2b, hs2l, hs3b, hs3l,
    hs4b, hs4l, hs5b, hs5l, htaw, htal, ha2, hmib, hmil, hlid, hlx, hex⟩ := hwf
  set c := encWordArray t.certHashes with hc
  set sd := encBytes t.subjectDigest with hsd
  set s1 := encBytes t.oidcIssuer with hs1
  set s2 := encBytes t.oidcSubject with hs2
  set s3 := encBytes t.oidcWorkflowRef with hs3
  set s4 := encBytes t.oidcRepository with hs4
  set s5 := encBytes t.oidcEventName with hs5
  set ta := encWordArray t.tsaChainHashes with hta
  set mi := encBytes t.messageImprint with hmi
  have hbc : c.length = 32 + 32 * t.certHashes.length := by
    rw [hc]; exact length_encWordArray _
  have hbta : ta.length = 32 + 32 * t.tsaChainHashes.length := by
    rw [hta]; exact length_encWordArray _
  have hbsd : sd.length < 2 ^ 64 + 64 := by
    rw [hsd, length_encBytes]
    have := pad32_lt t.subjectDigest.length
    omega
  have hbs1 : s1.length < 2 ^ 64 + 64 := by
    rw [hs1, length_encBytes]
    have := pad32_lt t.oidcIssuer.length
    omega
  have hbs2 : s2.length < 2 ^ 64 + 64 := by
    rw [hs2, length_encBytes]
    have := pad32_lt t.oidcSubject.length
    omega
  have hbs3 : s3.length < 2 ^ 64 + 64 := by
    rw [hs3, length_encBytes]
    have := pad32_lt t.oidcWorkflowRef.length
    omega
  have hbs4 : s4.length < 2 ^ 64 + 64 := by
    rw [hs4, length_encBytes]
    have := pad32_lt t.oidcRepository.length
    omega
  have hbs5 : s5.length < 2 ^ 64 + 64 := by
    rw [hs5, length_encBytes]
    have := pad32_lt t.oidcEventName.length
    omega
  have hbmi : mi.length < 2 ^ 64 + 64 := by
    rw [hmi, length_encBytes]
    have := pad32_lt t.messageImprint.length
    omega
  set HL := [448, 448 + c.length, t.subjectDigestAlgRaw,
    448 + c.length + sd.length,
    448 + c.length + sd.length + s1.length,
    448 + c.length + sd.length + s1.length + s2.length,
    448 + c.length + sd.length + s1.length + s2.length + s3.length,
    448 + c.length + sd.length + s1.length + s2.length + s3.length + s4.length,
    448 + c.length + sd.length + s1.length + s2.length + s3.length + s4.length
      + s5.length,
    t.messageImprintAlgRaw,
    448 + c.length + sd.length + s1.length + s2.length + s3.length + s4.length
      + s5.length + ta.length,
    t.rekorLogId, t.rekorLogIndex, t.rekorEntryIndex] with hHL
  set T := c ++ (sd ++ (s1 ++ (s2 ++ (s3 ++ (s4 ++ (s5 ++ (ta ++ mi)))))))
    with hT
  have hE : encodeAbiTuple t = (HL.map (beBytes 32)).flatten ++ T := by
    rw [hHL, hT, hc, hsd, hs1, hs2, hs3, hs4, hs5, hta, hmi]
    rfl
  clear_value c sd s1 s2 s3 s4 s5 ta mi HL T
  have hHlen : ((HL.map (beBytes 32)).flatten).length = 448 := by
    rw [length_flatten_beBytes, hHL]
    rfl
  have hHLb : ∀ w ∈ HL, w < 256 ^ 32 := by
    intro w hw
    rw [hHL] at hw
    simp only [List.mem_cons, List.not_mem_nil, or_false] at hw
    rcases hw with h | h | h | h | h | h | h | h | h | h | h | h | h | h <;>
      subst h <;> omega
  have hword : ∀ k : Nat, k < 14 →
      readWord (encodeAbiTuple t) (32 * k) = some (HL.getD k 0) := by
    intro k hk
    rw [hE]
    exact readWord_headWords HL T k (by rw [hHL]; exact hk) hHLb
  have hr0 : readWordArrayHead (encodeAbiTuple t) 0 = some t.certHashes := by
    have h0 := hword 0 (by norm_num)
    rw [show (32 : Nat) * 0 = 0 from rfl,
      show HL.getD 0 0 = 448 from by rw [hHL]; rfl] at h0
    simp only [readWordArrayHead, h0]
    rw [hE, skipArr _ _ _ 0 (by rw [hHlen]), hT, hc]
    exact readWordArray_encWordArray _ _ (by omega) hcw
  have hr1 : readDynBytesHead (encodeAbiTuple t) 32 = some t.subjectDigest := by
    have h1 := hword 1 (by norm_num)
    rw [show (32 : Nat) * 1 = 32 from rfl,
      show HL.getD 1 0 = 448 + c.length from by rw [hHL]; rfl] at h1
    simp only [readDynBytesHead, h1]
    rw [hE, skipDyn _ _ _ (c.length + 0) (by rw [hHlen]; omega), hT,
      skipDyn _ _ _ 0 rfl, hsd]
    exact readDynBytes_encBytes _ _ (by omega)
  have hr2 : readUint 1 (encodeAbiTuple t) 64 = some t.subjectDigestAlgRaw := by
    have h2 := hword 2 (by norm_num)
    rw [show (32 : Nat) * 2 = 64 from rfl,
      show HL.getD 2 0 = t.subjectDigestAlgRaw from by rw [hHL]; rfl] at h2
    simp only [readUint, h2]
    rw [if_pos (by omega : t.subjectDigestAlgRaw < 256 ^ 1)]
  have hr3 : readDynBytesHead (encodeAbiTuple t) 96 = some t.oidcIssuer := by
    have h3 := hword 3 (by norm_num)
    rw [show (32 : Nat) * 3 = 96 from rfl,
      show HL.getD 3 0 = 448 + c.length + sd.length from by rw [hHL]; rfl] at h3
    simp only [readDynBytesHead, h3]
    rw [hE, skipDyn _ _ _ (c.length + (sd.length + 0)) (by rw [hHlen]; omega),
      hT, skipDyn _ _ _ (sd.length + 0) rfl, skipDyn _ _ _ 0 rfl, hs1]
    exact readDynBytes_encBytes _ _ (by omega)
  have hr4 : readDynBytesHead (encodeAbiTuple t) 128 = some t.oidcSubject := by
    have h4 := hword 4 (by norm_num)
    rw [show (32 : Nat) * 4 = 128 from rfl,
      show HL.getD 4 0 = 448 + c.length + sd.length + s1.length from by
        rw [hHL]; rfl] at h4
    simp only [readDynBytesHead, h4]
    rw [hE,
      skipDyn _ _ _ (c.length + (sd.length + (s1.length + 0)))
        (by rw [hHlen]; omega),
      hT, skipDyn _ _ _ (sd.length + (s1.length + 0)) rfl,
      skipDyn _ _ _ (s1.length + 0) rfl, skipDyn _ _ _ 0 rfl, hs2]
    exact readDynBytes_encBytes _ _ (by omega)
  have hr5 : readDynBytesHead (encodeAbiTuple t) 160
      = some t.oidcWorkflowRef := by
    have h5 := hword 5 (by norm_num)
    rw [show (32 : Nat) * 5 = 160 from rfl,
      show HL.getD 5 0 = 448 + c.length + sd.length + s1.length + s2.length
        from by rw [hHL]; rfl] at h5
    simp only [readDynBytesHead, h5]
    rw [hE,
      skipDyn _ _ _ (c.length + (sd.length + (s1.length + (s2.length + 0))))
        (by rw [hHlen]; omega),
      hT, skipDyn _ _ _ (sd.length + (s1.length + (s2.length + 0))) rfl,
      skipDyn _ _ _ (s1.length + (s2.length + 0)) rfl,
      skipDyn _ _ _ (s2.length + 0) rfl, skipDyn _ _ _ 0 rfl, hs3]
    exact readDynBytes_encBytes _ _ (by omega)
  have hr6 : readDynBytesHead (encodeAbiTuple t) 192
      = some t.oidcRepository := by
    have h6 := hword 6 (by norm_num)
    rw [show (32 : Nat) * 6 = 192 from rfl,
      show HL.getD 6 0 = 448 + c.length + sd.length + s1.length + s2.length
        + s3.length from by rw [hHL]; rfl] at h6
    simp only [readDynBytesHead, h6]
    rw [hE,
      skipDyn _ _ _
        (c.length + (sd.length + (s1.length + (s2.length + (s3.length + 0)))))
        (by rw [hHlen]; omega),
      hT,
      skipDyn _ _ _ (sd.length + (s1.length + (s2.length + (s3.length + 0))))
        rfl,
      skipDyn _ _ _ (s1.length + (s2.length + (s3.length + 0))) rfl,
      skipDyn _ _ _ (s2.length + (s3.length + 0)) rfl,
      skipDyn _ _ _ (s3.length + 0) rfl, skipDyn _ _ _ 0 rfl, hs4]
    exact readDynBytes_encBytes _ _ (by omega)
  have hr7 : readDynBytesHead (encodeAbiTuple t) 224
      = some t.oidcEventName := by
    have h7 := hword 7 (by norm_num)
    rw [show (32 : Nat) * 7 = 224 from rfl,
      show HL.getD 7 0 = 448 + c.length + sd.length + s1.length + s2.length
        + s3.length + s4.length from by rw [hHL]; rfl] at h7
    simp only [readDynBytesHead, h7]
    rw [hE,
      skipDyn _ _ _
        (c.length + (sd.length + (s1.length + (s2.length + (s3.length +
          (s4.length + 0))))))
        (by rw [hHlen]; omega),
      hT,
      skipDyn _ _ _
        (sd.length + (s1.length + (s2.length + (s3.length + (s4.length + 0)))))
        rfl,
      skipDyn _ _ _ (s1.length + (s2.length + (s3.length + (s4.length + 0))))
        rfl,
      skipDyn _ _ _ (s2.length + (s3.length + (s4.length + 0))) rfl,
      skipDyn _ _ _ (s3.length + (s4.length + 0)) rfl,
      skipDyn _ _ _ (s4.length + 0) rfl, skipDyn _ _ _ 0 rfl, hs5]
    exact readDynBytes_encBytes _ _ (by omega)
  have hr8 : readWordArrayHead (encodeAbiTuple t) 256
      = some t.tsaChainHashes := by
    have h8 := hword 8 (by norm_num)
    rw [show (32 : Nat) * 8 = 256 from rfl,
      show HL.getD 8 0 = 448 + c.length + sd.length + s1.length + s2.length
        + s3.length + s4.length + s5.length from by rw [hHL]; rfl] at h8
    simp only [readWordArrayHead, h8]
    rw [hE,
      skipArr _ _ _
        (c.length + (sd.length + (s1.length + (s2.length + (s3.length +
          (s4.length + (s5.length + 0)))))))
        (by rw [hHlen]; omega),
      hT,
      skipArr _ _ _
        (sd.length + (s1.length + (s2.length + (s3.length + (s4.length +
          (s5.length + 0))))))
        rfl,
      skipArr _ _ _
        (s1.length + (s2.length + (s3.length + (s4.length + (s5.length + 0)))))
        rfl,
      skipArr _ _ _ (s2.length + (s3.length + (s4.length + (s5.length + 0))))
        rfl,
      skipArr _ _ _ (s3.length + (s4.length + (s5.length + 0))) rfl,
      skipArr _ _ _ (s4.length + (s5.length + 0)) rfl,
      skipArr _ _ _ (s5.length + 0) rfl, skipArr _ _ _ 0 rfl, hta]
    exact readWordArray_encWordArray _ _ (by omega) htaw
  have hr9 : readUint 1 (encodeAbiTuple t) 288
      = some t.messageImprintAlgRaw := by
    have h9 := hword 9 (by norm_num)
    rw [show (32 : Nat) * 9 = 288 from rfl,
      show HL.getD 9 0 = t.messageImprintAlgRaw from by rw [hHL]; rfl] at h9
    simp only [readUint, h9]
    rw [if_pos (by omega : t.messageImprintAlgRaw < 256 ^ 1)]
  have hr10 : readDynBytesHead (encodeAbiTuple t) 320
      = some t.messageImprint := by
    have h10 := hword 10 (by norm_num)
    rw [show (32 : Nat) * 10 = 320 from rfl,
      show HL.getD 10 0 = 448 + c.length + sd.length + s1.length + s2.length
        + s3.length + s4.length + s5.length + ta.length from by rw [hHL]; rfl] at h10
    simp only [readDynBytesHead, h10]
    rw [hE,
      skipDyn _ _ _
        (c.length + (sd.length + (s1.length + (s2.length + (s3.length +
          (s4.length + (s5.length + (ta.length + 0))))))))
        (by rw [hHlen]; omega),
      hT,
      skipDyn _ _ _
        (sd.length + (s1.length + (s2.length + (s3.length + (s4.length +
          (s5.length + (ta.length + 0)))))))
        rfl,
      skipDyn _ _ _
        (s1.length + (s2.length + (s3.length + (s4.length + (s5.length +
          (ta.length + 0))))))
        rfl,
      skipDyn _ _ _
        (s2.length + (s3.length + (s4.length + (s5.length + (ta.length + 0)))))
        rfl,
      skipDyn _ _ _ (s3.length + (s4.length + (s5.length + (ta.length + 0))))
        rfl,
      skipDyn _ _ _ (s4.length + (s5.length + (ta.length + 0))) rfl,
      skipDyn _ _ _ (s5.length + (ta.length + 0)) rfl,
      skipDyn _ _ _ (ta.length + 0) rfl, skipDyn _ _ _ 0 rfl, hmi]
    exact readDynBytes_encBytes_last _ (by omega)
  have hr11 : readWord (encodeAbiTuple t) 352 = some t.rekorLogId := by
    have h11 := hword 11 (by norm_num)
    rw [show (32 : Nat) * 11 = 352 from rfl,
      show HL.getD 11 0 = t.rekorLogId from by rw [hHL]; rfl] at h11
    exact h11
  have hr12 : readUint 8 (encodeAbiTuple t) 384 = some t.rekorLogIndex := by
    have h12 := hword 12 (by norm_num)
    rw [show (32 : Nat) * 12 = 384 from rfl,
      show HL.getD 12 0 = t.rekorLogIndex from by rw [hHL]; rfl] at h12
    simp only [readUint, h12]
    rw [if_pos (by omega : t.rekorLogIndex < 256 ^ 8)]
  have hr13 : readUint 8 (encodeAbiTuple t) 416 = some t.rekorEntryIndex := by
    have h13 := hword 13 (by norm_num)
    rw [show (32 : Nat) * 13 = 416 from rfl,
      show HL.getD 13 0 = t.rekorEntryIndex from by rw [hHL]; rfl] at h13
    simp only [readUint, h13]
    rw [if_pos (by omega : t.rekorEntryIndex < 256 ^ 8)]
  rw [VerificationResultParser._decodeAbiData, hr0, hr1, hr2, hr3, hr4, hr5,
    hr6, hr7, hr8, hr9, hr10, hr11, hr12, hr13]
  rfl

/-! ### Header arithmetic -/

theorem validBytes_take (bs : List Nat) (n : Nat) (h : ValidBytes bs) :
    ValidBytes (bs.take n) := fun b hb => h b (List.mem_of_mem_take hb)

theorem validBytes_drop (bs : List Nat) (n : Nat) (h : ValidBytes bs) :
    ValidBytes (bs.drop n) := fun b hb => h b (List.mem_of_mem_drop hb)

/-- Splitting the first header word: for a valid byte string of length at
least 32, `shr 192` of the first word is the big-endian value of bytes 0-7,
and byte 8 is `shr 184` masked to one byte. -/
theorem headerWord_split (data : List Nat) (h32 : 32 ≤ data.length)
    (hv : ValidBytes data) :
    beVal (data.take 32) / 2 ^ 192 = beVal (data.take 8) ∧
    beVal (data.take 32) / 2 ^ 184 % 256 = data.getD 8 0 := by
  have hsplit8 : data.take 32 = data.take 8 ++ (data.drop 8).take 24 :=
    List.take_add data 8 24
  have hlen24 : ((data.drop 8).take 24).length = 24 := by
    rw [List.length_take, List.length_drop]
    omega
  have hrest24 : beVal ((data.drop 8).take 24) < 2 ^ 192 := by
    have := beVal_lt ((data.drop 8).take 24)
      (validBytes_take _ _ (validBytes_drop _ _ hv))
    rw [hlen24] at this
    norm_num at this
    exact this
  have hv32 : beVal (data.take 32)
      = beVal (data.take 8) * 2 ^ 192 + beVal ((data.drop 8).take 24) := by
    rw [hsplit8, beVal_append, hlen24]
    norm_num
  constructor
  · rw [hv32]
    omega
  · have hsplit9 : data.take 32 = data.take 9 ++ (data.drop 9).take 23 :=
      List.take_add data 9 23
    have hlen23 : ((data.drop 9).take 23).length = 23 := by
      rw [List.length_take, List.length_drop]
      omega
    have hrest23 : beVal ((data.drop 9).take 23) < 2 ^ 184 := by
      have := beVal_lt ((data.drop 9).take 23)
        (validBytes_take _ _ (validBytes_drop _ _ hv))
      rw [hlen23] at this
      norm_num at this
      exact this
    have htake9 : data.take 9 = data.take 8 ++ [data.getD 8 0] := by
      rw [List.take_add data 8 1]
      have hd : data.drop 8 = data.getD 8 0 :: data.drop 9 := by
        rw [List.drop_eq_getElem_cons (by omega : 8 < data.length)]
        rw [List.getD_eq_getElem data 0 (by omega : 8 < data.length)]
      rw [hd]
      rfl
    have hb8 : data.getD 8 0 < 256 := by
      have : data.getD 8 0 ∈ data := by
        rw [List.getD_eq_getElem data 0 (by omega : 8 < data.length)]
        exact List.getElem_mem _
      exact hv _ this
    have hv9 : beVal (data.take 9)
        = beVal (data.take 8) * 256 + data.getD 8 0 := by
      rw [htake9, beVal_append]
      simp [beVal]
    have hv32b : beVal (data.take 32)
        = (beVal (data.take 8) * 256 + data.getD 8 0) * 2 ^ 184
          + beVal ((data.drop 9).take 23) := by
      rw [hsplit9, beVal_append, hlen23, hv9]
      norm_num
    rw [hv32b]
    have : (beVal (data.take 8) * 256 + data.getD 8 0) * 2 ^ 184
        + beVal ((data.drop 9).take 23)
        = (beVal (data.take 8) * 256 + data.getD 8 0) * 2 ^ 184
          + beVal ((data.drop 9).take 23) := rfl
    omega

/-- First 32 bytes of an encoded journal, as one big-endian word. -/
theorem headerWord_encodeJournalRaw (ts pt : Nat) (t : AbiTail)
    (hts : ts < 2 ^ 64) :
    beVal ((encodeJournalRaw ts pt t).take 32) = ts * 2 ^ 192 + pt * 2 ^ 184 := by
  have hassoc : encodeJournalRaw ts pt t
      = (beBytes 8 ts ++ ([pt] ++ List.replicate 23 0))
        ++ (List.replicate 9 0 ++ encodeAbiTuple t) := by
    unfold encodeJournalRaw
    rw [show List.replicate 32 (0 : Nat) = List.replicate 23 0 ++ List.replicate 9 0
      from by rw [← List.replicate_add]]
    simp [List.append_assoc]
  rw [hassoc, take_length_append _ _ 32 (by simp [length_beBytes])]
  rw [beVal_append, beVal_append, beVal_replicate_zero,
    beVal_beBytes_of_lt (show ts < 256 ^ 8 by omega)]
  have hpt : beVal [pt] = pt := by simp [beVal]
  rw [hpt, List.length_append, List.length_singleton, List.length_replicate]
  norm_num

theorem _parseHeader_encodeJournalRaw (ts pt : Nat) (t : AbiTail)
    (hts : ts < 2 ^ 64) (hpt : pt < 256) :
    VerificationResultParser._parseHeader (encodeJournalRaw ts pt t)
      = (if pt = 0 then .ok (ts, TimestampProofType.None)
        else if pt = 1 then .ok (ts, TimestampProofType.Rfc3161)
        else if pt = 2 then .ok (ts, TimestampProofType.Rekor)
        else .error ParseError.invalidTimestampProofType) := by
  unfold VerificationResultParser._parseHeader
  rw [headerWord_encodeJournalRaw ts pt t hts]
  have hdiv1 : (ts * 2 ^ 192 + pt * 2 ^ 184) / 2 ^ 192 = ts := by omega
  have hdiv2 : (ts * 2 ^ 192 + pt * 2 ^ 184) / 2 ^ 184 % 256 = pt := by omega
  simp only [hdiv1, hdiv2]

theorem _extractAbiData_encodeJournalRaw (ts pt : Nat) (t : AbiTail) :
    VerificationResultParser._extractAbiData (encodeJournalRaw ts pt t)
      = encodeAbiTuple t := by
  unfold VerificationResultParser._extractAbiData encodeJournalRaw
  rw [show (41 : Nat) = (beBytes 8 ts).length + 33 from by rw [length_beBytes],
    List.drop_append,
    show (33 : Nat) = ([pt] : List Nat).length + 32 from rfl,
    List.drop_append]
  exact drop_length_append _ _ _ (List.length_replicate 32 0)

theorem length_encodeAbiTuple_ge (t : AbiTail) :
    448 ≤ (encodeAbiTuple t).length := by
  unfold encodeAbiTuple
  simp only [List.length_append, length_flatten_beBytes, List.length_cons,
    List.length_nil]
  omega

theorem length_encodeJournalRaw (ts pt : Nat) (t : AbiTail) :
    (encodeJournalRaw ts pt t).length = 41 + (encodeAbiTuple t).length := by
  unfold encodeJournalRaw
  simp only [List.length_append, length_beBytes, List.length_singleton,
    List.length_replicate]
  omega

/-- Enum value selected by `_parseHeader` for an in-range proof-type byte. -/
def rawProofType (pt : Nat) : TimestampProofType :=
  if pt = 0 then .None else if pt = 1 then .Rfc3161 else .Rekor

theorem _parseHeader_encodeJournalRaw3 (ts pt : Nat) (t : AbiTail)
    (hts : ts < 2 ^ 64) (hpt : pt < 3) :
    VerificationResultParser._parseHeader (encodeJournalRaw ts pt t)
      = .ok (ts, rawProofType pt) := by
  rw [_parseHeader_encodeJournalRaw ts pt t hts (by omega)]
  unfold rawProofType
  interval_cases pt <;> rfl

/-- Parsing a canonically encoded journal with an in-range proof-type byte
succeeds and reproduces header and tail. -/
theorem parse_encodeJournalRaw (ts pt : Nat) (t : AbiTail) (hts : ts < 2 ^ 64)
    (hpt : pt < 3) (hwf : WFAbiTail t) (hcert : 2 ≤ t.certHashes.length) :
    VerificationResultParser.parseVerificationResultBytes
        (encodeJournalRaw ts pt t)
      = .ok (VerificationResultParser.buildResult ts (rawProofType pt) t) := by
  have hlen := length_encodeJournalRaw ts pt t
  have htup := length_encodeAbiTuple_ge t
  unfold VerificationResultParser.parseVerificationResultBytes
  rw [if_neg (by omega)]
  rw [_parseHeader_encodeJournalRaw3 ts pt t hts hpt]
  rw [_extractAbiData_encodeJournalRaw ts pt t,
    _decodeAbiData_encodeAbiTuple t hwf]
  have hno : ¬((VerificationResultParser.buildResult ts (rawProofType pt)
      t).certificateHashes.length < 2) := by
    show ¬(t.certHashes.length < 2)
    omega
  change (if (VerificationResultParser.buildResult ts (rawProofType pt)
        t).certificateHashes.length < 2 then
      Except.error ParseError.invalidCertificateHashesLength
    else Except.ok (VerificationResultParser.buildResult ts (rawProofType pt) t))
    = Except.ok (VerificationResultParser.buildResult ts (rawProofType pt) t)
  rw [if_neg hno]

/-! ### Characterizing the parser's success and failure paths -/

namespace VerificationResultParser

theorem parse_ok_elim (data : List Nat) (r : VerificationResult)
    (h : parseVerificationResultBytes data = .ok r) :
    73 ≤ data.length ∧ ∃ ts pt t, _parseHeader data = .ok (ts, pt) ∧
      _decodeAbiData (_extractAbiData data) = some t ∧
      2 ≤ t.certHashes.length ∧ r = buildResult ts pt t := by
  unfold parseVerificationResultBytes at h
  by_cases hlen : data.length < 73
  · rw [if_pos hlen] at h
    exact absurd h (by simp)
  · rw [if_neg hlen] at h
    cases hph : _parseHeader data with
    | error e =>
        rw [hph] at h
        exact absurd h (by simp)
    | ok p =>
        obtain ⟨ts, pt⟩ := p
        rw [hph] at h
        cases hdec : _decodeAbiData (_extractAbiData data) with
        | none =>
            rw [hdec] at h
            exact absurd h (by simp)
        | some t =>
            rw [hdec] at h
            replace h : (if (buildResult ts pt t).certificateHashes.length < 2
                then (Except.error ParseError.invalidCertificateHashesLength :
                  Except ParseError VerificationResult)
                else .ok (buildResult ts pt t)) = .ok r := h
            by_cases hc : (buildResult ts pt t).certificateHashes.length < 2
            · rw [if_pos hc] at h
              exact absurd h (by simp)
            · rw [if_neg hc] at h
              exact ⟨by omega, ts, pt, t, rfl, rfl, Nat.not_lt.mp hc,
                (Except.ok.inj h).symm⟩

theorem parse_shortCert (data : List Nat) (ts : Nat) (pt : TimestampProofType)
    (t : AbiTail) (hlen : 73 ≤ data.length)
    (hph : _parseHeader data = .ok (ts, pt))
    (hdec : _decodeAbiData (_extractAbiData data) = some t)
    (hc : t.certHashes.length < 2) :
    parseVerificationResultBytes data
      = .error .invalidCertificateHashesLength := by
  unfold parseVerificationResultBytes
  rw [if_neg (by omega), hph, hdec]
  change (if (buildResult ts pt t).certificateHashes.length < 2
      then (Except.error ParseError.invalidCertificateHashesLength :
        Except ParseError VerificationResult)
      else .ok (buildResult ts pt t)) = _
  have hc2 : (buildResult ts pt t).certificateHashes.length < 2 := hc
  rw [if_pos hc2]

/-- What `_parseHeader` computes, in terms of the raw header bytes. -/
theorem _parseHeader_eq (data : List Nat) (hv : ValidBytes data)
    (hlen : 32 ≤ data.length) :
    _parseHeader data
      = (if data.getD 8 0 = 0 then .ok (beVal (data.take 8), .None)
        else if data.getD 8 0 = 1 then .ok (beVal (data.take 8), .Rfc3161)
        else if data.getD 8 0 = 2 then .ok (beVal (data.take 8), .Rekor)
        else .error ParseError.invalidTimestampProofType) := by
  obtain ⟨htime, hbyte⟩ := headerWord_split data hlen hv
  unfold _parseHeader
  simp only [htime, hbyte]

theorem parse_badProofType (data : List Nat) (hv : ValidBytes data)
    (hlen : 73 ≤ data.length) (h3 : 3 ≤ data.getD 8 0) :
    parseVerificationResultBytes data
      = .error .invalidTimestampProofType := by
  unfold parseVerificationResultBytes
  rw [if_neg (by omega), _parseHeader_eq data hv (by omega)]
  rw [if_neg (by omega), if_neg (by omega), if_neg (by omega)]

/-- On a 32-aligned counter below `2^256`, the copy loop exits after
exactly one iteration per 32-byte chunk. -/
theorem copyLoopSteps_aligned (n : Nat) (h : 32 * n < 2 ^ 256) :
    copyLoopSteps n (32 * n) = some n := by
  induction n with
  | zero => rfl
  | succ m ih =>
      rw [copyLoopSteps, if_neg (by omega)]
      have hsub : evmSub32 (32 * (m + 1)) = 32 * m := by
        unfold evmSub32
        have he : 32 * (m + 1) + (2 ^ 256 - 32) = 32 * m + 2 ^ 256 := by
          omega
        rw [he, Nat.add_mod_right, Nat.mod_eq_of_lt (by omega)]
      rw [hsub, ih (by omega)]

/-- On a misaligned counter the wrapping decrement never reaches zero: the
loop is still running after any number of steps. -/
theorem copyLoopSteps_misaligned (f : Nat) : ∀ L : Nat, L < 2 ^ 256 →
    L % 32 ≠ 0 → copyLoopSteps f L = none := by
  induction f with
  | zero =>
      intro L hlt hm
      rw [copyLoopSteps, if_neg (by omega)]
  | succ g ih =>
      intro L hlt hm
      rw [copyLoopSteps, if_neg (by omega)]
      have h1 : evmSub32 L < 2 ^ 256 := Nat.mod_lt _ (by norm_num)
      have h2 : evmSub32 L % 32 = L % 32 := by
        unfold evmSub32
        rw [Nat.mod_mod_of_dvd _ (by norm_num : (32 : Nat) ∣ 2 ^ 256)]
        omega
      rw [ih (evmSub32 L) h1 (by rw [h2]; exact hm)]

/-- The copy loop diverges from every misaligned counter. -/
theorem copyLoop_not_terminates (L : Nat) (hlt : L < 2 ^ 256)
    (hm : L % 32 ≠ 0) : ¬ copyLoopTerminates L := by
  intro hcon
  obtain ⟨f, n, hf⟩ := hcon
  rw [copyLoopSteps_misaligned f L hlt hm] at hf
  exact Option.noConfusion hf

end VerificationResultParser

namespace LegacyVerificationResultParser

theorem legacy_parse_ok_elim (data : List Nat) (r : LegacyVerificationResult)
    (h : parseVerificationResultBytes data = .ok r) :
    40 ≤ data.length ∧ 2 ≤ r.certificateHashes.length := by
  unfold parseVerificationResultBytes at h
  by_cases hlen : data.length < 40
  · rw [if_pos hlen] at h
    exact absurd h (by simp)
  · rw [if_neg hlen] at h
    cases hdec : _decodeAbiData (data.drop 40) with
    | none =>
        rw [hdec] at h
        exact absurd h (by simp)
    | some p =>
        obtain ⟨ch, sd, i, s, w, rp, e⟩ := p
        rw [hdec] at h
        replace h : (if ch.length < 2
            then (Except.error ParseError.invalidCertificateHashesLength :
              Except ParseError LegacyVerificationResult)
            else .ok ⟨beVal (data.take 32) / 2 ^ 192, ch, sd, i, s, w, rp, e⟩)
            = .ok r := h
        by_cases hc : ch.length < 2
        · rw [if_pos hc] at h
          exact absurd h (by simp)
        · rw [if_neg hc] at h
          refine ⟨by omega, ?_⟩
          rw [← Except.ok.inj h]
          exact Nat.not_lt.mp hc

theorem legacy_parse_shortCert (data : List Nat)
    (ch sd i s w rp e : List Nat) (hlen : 40 ≤ data.length)
    (hdec : _decodeAbiData (data.drop 40) = some (ch, sd, i, s, w, rp, e))
    (hc : ch.length < 2) :
    parseVerificationResultBytes data
      = .error .invalidCertificateHashesLength := by
  unfold parseVerificationResultBytes
  rw [if_neg (by omega), hdec]
  change (if ch.length < 2
      then (Except.error ParseError.invalidCertificateHashesLength :
        Except ParseError LegacyVerificationResult)
      else .ok ⟨beVal (data.take 32) / 2 ^ 192, ch, sd, i, s, w, rp, e⟩) = _
  rw [if_pos hc]

end LegacyVerificationResultParser

/-! ### SigstoreAttestationVerifier (SigstoreAttestationVerifier.sol)

State-changing entry points are embedded as functions from an explicit
contract state; a revert is an `Except.error`, which by EVM transaction
semantics discards every state write, event and return value of the call. -/

inductive ZkCoProcessorType
  | None
  | RiscZero
  | Succinct
deriving DecidableEq

/-- `struct ZkCoProcessorConfig`; `bytes32` and `address` as naturals. -/
structure ZkCoProcessorConfig where
  programIdentifier : Nat
  zkVerifier : Nat
deriving DecidableEq

inductive VerifierError
  | invalidZkCoProcessorType
  | missingZkVerifier
  | missingZkProgramId
  | unauthorized
  | zkProofVerificationFailed
  | parseFailed (e : ParseError)
deriving DecidableEq

/-- Contract storage: the Solady `Ownable` owner slot and `_zkConfig`. -/
structure VerifierState where
  owner : Nat
  zkConfig : ZkCoProcessorType → ZkCoProcessorConfig

inductive VerifierEvent
  | AttestationSubmitted (verifierType : ZkCoProcessorType) (output : List Nat)
  | ZkCoProcessorUpdated (zkCoProcessor : ZkCoProcessorType)
      (programIdentifier : Nat) (zkVerifier : Nat)
deriving DecidableEq

namespace SigstoreAttestationVerifier

/-- `_noneZkConfigCheck`: reverts with `InvalidZkCoProcessorType` on `None`. -/
def _noneZkConfigCheck (zkCoProcessor : ZkCoProcessorType) :
    Except VerifierError Unit :=
  if zkCoProcessor = .None then .error .invalidZkCoProcessorType else .ok ()

/-- `setZkCoProcessorConfig` with explicit caller; Solady's `onlyOwner`
modifier reverts for any caller other than the owner. -/
def setZkCoProcessorConfig (st : VerifierState) (sender : Nat)
    (zkCoProcessor : ZkCoProcessorType) (programIdentifier zkVerifier : Nat) :
    Except VerifierError (VerifierState × List VerifierEvent) :=
  if sender ≠ st.owner then .error .unauthorized
  else
    match _noneZkConfigCheck zkCoProcessor with
    | .error e => .error e
    | .ok _ =>
        .ok ({ st with zkConfig := fun ty =>
            if ty = zkCoProcessor then ⟨programIdentifier, zkVerifier⟩
            else st.zkConfig ty },
          [.ZkCoProcessorUpdated zkCoProcessor programIdentifier zkVerifier])

/-- `verifyAndAttestWithZKProof`. The external RiscZero / SP1 verifier call
is modelled by the oracle `zkProofOk`: those calls revert unless the proof
verifies, which aborts the whole transaction. The `AttestationSubmitted`
event is emitted before the journal is parsed in the source, but a parse
revert rolls the log back, so the event survives only on full success. -/
def verifyAndAttestWithZKProof (st : VerifierState) (output : List Nat)
    (zkCoProcessor : ZkCoProcessorType) (zkProofOk : Bool) :
    Except VerifierError
      (VerifierState × List VerifierEvent × VerificationResult) :=
  match _noneZkConfigCheck zkCoProcessor with
  | .error e => .error e
  | .ok _ =>
      let config := st.zkConfig zkCoProcessor
      if config.zkVerifier = 0 then .error .missingZkVerifier
      else if config.programIdentifier = 0 then .error .missingZkProgramId
      else if zkProofOk = false then .error .zkProofVerificationFailed
      else
        match VerificationResultParser.parseVerificationResultBytes output with
        | .error e => .error (.parseFailed e)
        | .ok r => .ok (st, [.AttestationSubmitted zkCoProcessor output], r)

/-- States reachable from deployment: the constructor zero-initializes
`_zkConfig`, and only `setZkCoProcessorConfig` (owner-only) writes it;
`transferOwnership` (from Solady `Ownable`) changes only the owner slot. -/
inductive Reachable : VerifierState → Prop
  | deployed (owner : Nat) : Reachable ⟨owner, fun _ => ⟨0, 0⟩⟩
  | configured (st st' : VerifierState) (sender : Nat)
      (ty : ZkCoProcessorType) (pid ver : Nat) (evs : List VerifierEvent) :
      Reachable st →
      setZkCoProcessorConfig st sender ty pid ver = .ok (st', evs) →
      Reachable st'
  | ownershipTransferred (st : VerifierState) (newOwner : Nat) :
      Reachable st → Reachable { st with owner := newOwner }

theorem setConfig_ok_elim (st st' : VerifierState) (sender : Nat)
    (ty : ZkCoProcessorType) (pid ver : Nat) (evs : List VerifierEvent)
    (h : setZkCoProcessorConfig st sender ty pid ver = .ok (st', evs)) :
    sender = st.owner ∧ ty ≠ .None ∧
    st'.owner = st.owner ∧
    st'.zkConfig = fun u =>
      if u = ty then ⟨pid, ver⟩ else st.zkConfig u := by
  unfold setZkCoProcessorConfig at h
  by_cases hs : sender ≠ st.owner
  · rw [if_pos hs] at h
    exact absurd h (by simp)
  · rw [if_neg hs] at h
    unfold _noneZkConfigCheck at h
    by_cases hty : ty = ZkCoProcessorType.None
    · rw [if_pos hty] at h
      exact absurd h (by simp)
    · rw [if_neg hty] at h
      replace h : (Except.ok ({ st with zkConfig := fun u =>
          if u = ty then ⟨pid, ver⟩ else st.zkConfig u },
          [VerifierEvent.ZkCoProcessorUpdated ty pid ver]) :
          Except VerifierError (VerifierState × List VerifierEvent))
          = .ok (st', evs) := h
      have hpair := Except.ok.inj h
      have hst : ({ st with zkConfig := fun u =>
          if u = ty then ⟨pid, ver⟩ else st.zkConfig u } : VerifierState)
          = st' := by
        have := congrArg Prod.fst hpair
        simpa using this
      refine ⟨by omega, hty, ?_, ?_⟩
      · rw [← hst]
      · rw [← hst]

/-- The configuration slot for `ZkCoProcessorType.None` is never written. -/
theorem reachable_none_config (st : VerifierState) (h : Reachable st) :
    st.zkConfig .None = ⟨0, 0⟩ := by
  induction h with
  | deployed owner => rfl
  | configured st st' sender ty pid ver evs hst hset ih =>
      obtain ⟨-, hty, -, hcfg⟩ := setConfig_ok_elim st st' sender ty pid ver evs hset
      simp only [hcfg]
      rw [if_neg (show ¬(ZkCoProcessorType.None = ty) from
        fun hc => hty hc.symm)]
      exact ih
  | ownershipTransferred st newOwner hst ih => exact ih

end SigstoreAttestationVerifier

/-! ### Further shared lemmas -/

/-- Rebuilding a result from its own raw ABI components is the identity. -/
theorem buildResult_abiTailOfResult (r : VerificationResult) :
    VerificationResultParser.buildResult r.timestamp
      (rawProofType (timestampProofTypeRaw r.timestampProofType))
      (abiTailOfResult r) = r := by
  obtain ⟨ts, pt, ch, sd, sda, i, s, w, rp, e, tch, mia, mi, lid, lx, ex⟩ := r
  cases pt <;> cases sda <;> cases mia <;> rfl

theorem timestampProofTypeRaw_lt (pt : TimestampProofType) :
    timestampProofTypeRaw pt < 3 := by
  cases pt <;> simp [timestampProofTypeRaw]

/-- A canonical journal whose proof-type byte is 3 or more is rejected. -/
theorem parse_encodeJournalRaw_badType (ts pt : Nat) (t : AbiTail)
    (hts : ts < 2 ^ 64) (h3 : 3 ≤ pt) (hpt : pt < 256) :
    VerificationResultParser.parseVerificationResultBytes
        (encodeJournalRaw ts pt t)
      = .error .invalidTimestampProofType := by
  have hlen := length_encodeJournalRaw ts pt t
  have htup := length_encodeAbiTuple_ge t
  unfold VerificationResultParser.parseVerificationResultBytes
  rw [if_neg (by omega)]
  rw [_parseHeader_encodeJournalRaw ts pt t hts hpt]
  rw [if_neg (by omega), if_neg (by omega), if_neg (by omega)]

namespace SigstoreAttestationVerifier

/-- Unfolding `verifyAndAttestWithZKProof` past the `None` check. -/
theorem verify_notNone (st : VerifierState) (output : List Nat)
    (zk : ZkCoProcessorType) (zkProofOk : Bool) (h : zk ≠ .None) :
    verifyAndAttestWithZKProof st output zk zkProofOk
      = (if (st.zkConfig zk).zkVerifier = 0 then .error .missingZkVerifier
        else if (st.zkConfig zk).programIdentifier = 0 then
          .error .missingZkProgramId
        else if zkProofOk = false then .error .zkProofVerificationFailed
        else match
            VerificationResultParser.parseVerificationResultBytes output with
          | .error e => .error (.parseFailed e)
          | .ok r => .ok (st, [.AttestationSubmitted zk output], r)) := by
  unfold verifyAndAttestWithZKProof _noneZkConfigCheck
  rw [if_neg h]

theorem verify_none (st : VerifierState) (output : List Nat)
    (zkProofOk : Bool) :
    verifyAndAttestWithZKProof st output .None zkProofOk
      = .error .invalidZkCoProcessorType := by
  unfold verifyAndAttestWithZKProof _noneZkConfigCheck
  rw [if_pos rfl]

end SigstoreAttestationVerifier

/-! ### Byte-validity of encoded journals -/

theorem validBytes_append (a b : List Nat) (ha : ValidBytes a)
    (hb : ValidBytes b) : ValidBytes (a ++ b) := by
  intro x hx
  rcases List.mem_append.mp hx with h | h
  · exact ha x h
  · exact hb x h

theorem validBytes_replicate_zero (n : Nat) :
    ValidBytes (List.replicate n 0) := by
  intro x hx
  rw [List.eq_of_mem_replicate hx]
  norm_num

theorem validBytes_flatten_beBytes (ws : List Nat) :
    ValidBytes ((ws.map (beBytes 32)).flatten) := by
  induction ws with
  | nil => intro x hx; simp at hx
  | cons w ws ih =>
      simp only [List.map_cons, List.flatten_cons]
      exact validBytes_append _ _ (validBytes_beBytes 32 w) ih

theorem validBytes_encBytes (bs : List Nat) (h : ValidBytes bs) :
    ValidBytes (encBytes bs) :=
  validBytes_append _ _ (validBytes_beBytes 32 bs.length)
    (validBytes_append _ _ h (validBytes_replicate_zero _))

theorem validBytes_encWordArray (ws : List Nat) :
    ValidBytes (encWordArray ws) :=
  validBytes_append _ _ (validBytes_beBytes 32 ws.length)
    (validBytes_flatten_beBytes ws)

theorem validBytes_encodeAbiTuple (t : AbiTail) (hwf : WFAbiTail t) :
    ValidBytes (encodeAbiTuple t) := by
  obtain ⟨-, -, hsdb, -, -, hs1b, -, hs2b, -, hs3b, -, hs4b, -, hs5b, -,
    -, -, -, hmib, -, -, -, -⟩ := hwf
  unfold encodeAbiTuple
  refine validBytes_append _ _ (validBytes_flatten_beBytes _)
    (validBytes_append _ _ (validBytes_encWordArray _)
      (validBytes_append _ _ (validBytes_encBytes _ hsdb)
        (validBytes_append _ _ (validBytes_encBytes _ hs1b)
          (validBytes_append _ _ (validBytes_encBytes _ hs2b)
            (validBytes_append _ _ (validBytes_encBytes _ hs3b)
              (validBytes_append _ _ (validBytes_encBytes _ hs4b)
                (validBytes_append _ _ (validBytes_encBytes _ hs5b)
                  (validBytes_append _ _ (validBytes_encWordArray _)
                    (validBytes_encBytes _ hmib)))))))))

theorem validBytes_encodeJournalRaw (ts pt : Nat) (t : AbiTail)
    (hpt : pt < 256) (hwf : WFAbiTail t) :
    ValidBytes (encodeJournalRaw ts pt t) := by
  unfold encodeJournalRaw
  refine validBytes_append _ _ (validBytes_beBytes 8 ts)
    (validBytes_append _ _ ?_ (validBytes_append _ _
      (validBytes_replicate_zero 32) (validBytes_encodeAbiTuple t hwf)))
  intro x hx
  rw [List.mem_singleton] at hx
  omega

/-- Byte 8 of an encoded journal is the proof-type byte. -/
theorem getD8_encodeJournalRaw (ts pt : Nat) (t : AbiTail) :
    (encodeJournalRaw ts pt t).getD 8 0 = pt := by
  unfold encodeJournalRaw
  rw [List.getD_append_right _ _ 0 8 (by rw [length_beBytes])]
  rw [length_beBytes]
  rfl

/-! ### Legacy 7-field tuple encoder -/

/-- ABI encoding of the legacy parser's 7-field tuple
`(bytes32[], bytes, string, string, string, string, string)`. -/
def encodeAbiTuple7 (ch sd s1 s2 s3 s4 s5 : List Nat) : List Nat :=
  let c := encWordArray ch
  let b0 := encBytes sd
  let b1 := encBytes s1
  let b2 := encBytes s2
  let b3 := encBytes s3
  let b4 := encBytes s4
  let b5 := encBytes s5
  let o0 := 224
  let o1 := o0 + c.length
  let o2 := o1 + b0.length
  let o3 := o2 + b1.length
  let o4 := o3 + b2.length
  let o5 := o4 + b3.length
  let o6 := o5 + b4.length
  let head := [o0, o1, o2, o3, o4, o5, o6]
  (head.map (beBytes 32)).flatten ++
    (c ++ (b0 ++ (b1 ++ (b2 ++ (b3 ++ (b4 ++ b5))))))

set_option maxHeartbeats 2000000 in
theorem legacy_decodeAbiData_encodeAbiTuple7 (ch sd s1 s2 s3 s4 s5 : List Nat)
    (hcw : ∀ h ∈ ch, h < 256 ^ 32) (hcl : ch.length < 2 ^ 64)
    (h0 : sd.length < 2 ^ 64) (h1 : s1.length < 2 ^ 64)
    (h2 : s2.length < 2 ^ 64) (h3 : s3.length < 2 ^ 64)
    (h4 : s4.length < 2 ^ 64) (h5 : s5.length < 2 ^ 64) :
    LegacyVerificationResultParser._decodeAbiData
        (encodeAbiTuple7 ch sd s1 s2 s3 s4 s5)
      = some (ch, sd, s1, s2, s3, s4, s5) := by
  set c := encWordArray ch with hc
  set b0 := encBytes sd with hb0
  set b1 := encBytes s1 with hb1
  set b2 := encBytes s2 with hb2
  set b3 := encBytes s3 with hb3
  set b4 := encBytes s4 with hb4
  set b5 := encBytes s5 with hb5
  have hlc : c.length = 32 + 32 * ch.length := by
    rw [hc]; exact length_encWordArray _
  have hl0 : b0.length < 2 ^ 64 + 64 := by
    rw [hb0, length_encBytes]
    have := pad32_lt sd.length
    omega
  have hl1 : b1.length < 2 ^ 64 + 64 := by
    rw [hb1, length_encBytes]
    have := pad32_lt s1.length
    omega
  have hl2 : b2.length < 2 ^ 64 + 64 := by
    rw [hb2, length_encBytes]
    have := pad32_lt s2.length
    omega
  have hl3 : b3.length < 2 ^ 64 + 64 := by
    rw [hb3, length_encBytes]
    have := pad32_lt s3.length
    omega
  have hl4 : b4.length < 2 ^ 64 + 64 := by
    rw [hb4, length_encBytes]
    have := pad32_lt s4.length
    omega
  set HL := [224, 224 + c.length, 224 + c.length + b0.length,
    224 + c.length + b0.length + b1.length,
    224 + c.length + b0.length + b1.length + b2.length,
    224 + c.length + b0.length + b1.length + b2.length + b3.length,
    224 + c.length + b0.length + b1.length + b2.length + b3.length
      + b4.length] with hHL
  set T := c ++ (b0 ++ (b1 ++ (b2 ++ (b3 ++ (b4 ++ b5))))) with hT
  have hE : encodeAbiTuple7 ch sd s1 s2 s3 s4 s5
      = (HL.map (beBytes 32)).flatten ++ T := by
    rw [hHL, hT, hc, hb0, hb1, hb2, hb3, hb4, hb5]
    rfl
  clear_value c b0 b1 b2 b3 b4 b5 HL T
  have hHlen : ((HL.map (beBytes 32)).flatten).length = 224 := by
    rw [length_flatten_beBytes, hHL]
    rfl
  have hHLb : ∀ w ∈ HL, w < 256 ^ 32 := by
    intro w hw
    rw [hHL] at hw
    simp only [List.mem_cons, List.not_mem_nil, or_false] at hw
    rcases hw with h | h | h | h | h | h | h <;> subst h <;> omega
  have hword : ∀ k : Nat, k < 7 →
      readWord (encodeAbiTuple7 ch sd s1 s2 s3 s4 s5) (32 * k)
        = some (HL.getD k 0) := by
    intro k hk
    rw [hE]
    exact readWord_headWords HL T k (by rw [hHL]; exact hk) hHLb
  have hr0 : readWordArrayHead (encodeAbiTuple7 ch sd s1 s2 s3 s4 s5) 0
      = some ch := by
    have h := hword 0 (by norm_num)
    rw [show (32 : Nat) * 0 = 0 from rfl,
      show HL.getD 0 0 = 224 from by rw [hHL]; rfl] at h
    simp only [readWordArrayHead, h]
    rw [hE, skipArr _ _ _ 0 (by rw [hHlen]), hT, hc]
    exact readWordArray_encWordArray _ _ (by omega) hcw
  have hr1 : readDynBytesHead (encodeAbiTuple7 ch sd s1 s2 s3 s4 s5) 32
      = some sd := by
    have h := hword 1 (by norm_num)
    rw [show (32 : Nat) * 1 = 32 from rfl,
      show HL.getD 1 0 = 224 + c.length from by rw [hHL]; rfl] at h
    simp only [readDynBytesHead, h]
    rw [hE, skipDyn _ _ _ (c.length + 0) (by rw [hHlen]; omega), hT,
      skipDyn _ _ _ 0 rfl, hb0]
    exact readDynBytes_encBytes _ _ (by omega)
  have hr2 : readDynBytesHead (encodeAbiTuple7 ch sd s1 s2 s3 s4 s5) 64
      = some s1 := by
    have h := hword 2 (by norm_num)
    rw [show (32 : Nat) * 2 = 64 from rfl,
      show HL.getD 2 0 = 224 + c.length + b0.length from by
        rw [hHL]; rfl] at h
    simp only [readDynBytesHead, h]
    rw [hE, skipDyn _ _ _ (c.length + (b0.length + 0))
        (by rw [hHlen]; omega),
      hT, skipDyn _ _ _ (b0.length + 0) rfl, skipDyn _ _ _ 0 rfl, hb1]
    exact readDynBytes_encBytes _ _ (by omega)
  have hr3 : readDynBytesHead (encodeAbiTuple7 ch sd s1 s2 s3 s4 s5) 96
      = some s2 := by
    have h := hword 3 (by norm_num)
    rw [show (32 : Nat) * 3 = 96 from rfl,
      show HL.getD 3 0 = 224 + c.length + b0.length + b1.length from by
        rw [hHL]; rfl] at h
    simp only [readDynBytesHead, h]
    rw [hE, skipDyn _ _ _ (c.length + (b0.length + (b1.length + 0)))
        (by rw [hHlen]; omega),
      hT, skipDyn _ _ _ (b0.length + (b1.length + 0)) rfl,
      skipDyn _ _ _ (b1.length + 0) rfl, skipDyn _ _ _ 0 rfl, hb2]
    exact readDynBytes_encBytes _ _ (by omega)
  have hr4 : readDynBytesHead (encodeAbiTuple7 ch sd s1 s2 s3 s4 s5) 128
      = some s3 := by
    have h := hword 4 (by norm_num)
    rw [show (32 : Nat) * 4 = 128 from rfl,
      show HL.getD 4 0 = 224 + c.length + b0.length + b1.length + b2.length
        from by rw [hHL]; rfl] at h
    simp only [readDynBytesHead, h]
    rw [hE,
      skipDyn _ _ _ (c.length + (b0.length + (b1.length + (b2.length + 0))))
        (by rw [hHlen]; omega),
      hT, skipDyn _ _ _ (b0.length + (b1.length + (b2.length + 0))) rfl,
      skipDyn _ _ _ (b1.length + (b2.length + 0)) rfl,
      skipDyn _ _ _ (b2.length + 0) rfl, skipDyn _ _ _ 0 rfl, hb3]
    exact readDynBytes_encBytes _ _ (by omega)
  have hr5 : readDynBytesHead (encodeAbiTuple7 ch sd s1 s2 s3 s4 s5) 160
      = some s4 := by
    have h := hword 5 (by norm_num)
    rw [show (32 : Nat) * 5 = 160 from rfl,
      show HL.getD 5 0 = 224 + c.length + b0.length + b1.length + b2.length
        + b3.length from by rw [hHL]; rfl] at h
    simp only [readDynBytesHead, h]
    rw [hE,
      skipDyn _ _ _
        (c.length + (b0.length + (b1.length + (b2.length + (b3.length + 0)))))
        (by rw [hHlen]; omega),
      hT,
      skipDyn _ _ _ (b0.length + (b1.length + (b2.length + (b3.length + 0))))
        rfl,
      skipDyn _ _ _ (b1.length + (b2.length + (b3.length + 0))) rfl,
      skipDyn _ _ _ (b2.length + (b3.length + 0)) rfl,
      skipDyn _ _ _ (b3.length + 0) rfl, skipDyn _ _ _ 0 rfl, hb4]
    exact readDynBytes_encBytes _ _ (by omega)
  have hr6 : readDynBytesHead (encodeAbiTuple7 ch sd s1 s2 s3 s4 s5) 192
      = some s5 := by
    have h := hword 6 (by norm_num)
    rw [show (32 : Nat) * 6 = 192 from rfl,
      show HL.getD 6 0 = 224 + c.length + b0.length + b1.length + b2.length
        + b3.length + b4.length from by rw [hHL]; rfl] at h
    simp only [readDynBytesHead, h]
    rw [hE,
      skipDyn _ _ _
        (c.length + (b0.length + (b1.length + (b2.length + (b3.length +
          (b4.length + 0))))))
        (by rw [hHlen]; omega),
      hT,
      skipDyn _ _ _
        (b0.length + (b1.length + (b2.length + (b3.length + (b4.length + 0)))))
        rfl,
      skipDyn _ _ _ (b1.length + (b2.length + (b3.length + (b4.length + 0))))
        rfl,
      skipDyn _ _ _ (b2.length + (b3.length + (b4.length + 0))) rfl,
      skipDyn _ _ _ (b3.length + (b4.length + 0)) rfl,
      skipDyn _ _ _ (b4.length + 0) rfl, skipDyn _ _ _ 0 rfl, hb5]
    exact readDynBytes_encBytes_last _ (by omega)
  rw [LegacyVerificationResultParser._decodeAbiData, hr0, hr1, hr2, hr3,
    hr4, hr5, hr6]
  rfl

theorem length_encodeAbiTuple7_ge (ch sd s1 s2 s3 s4 s5 : List Nat) :
    224 ≤ (encodeAbiTuple7 ch sd s1 s2 s3 s4 s5).length := by
  unfold encodeAbiTuple7
  simp only [List.length_append, length_flatten_beBytes, List.length_cons,
    List.length_nil]
  omega

/-! ### Concrete test vectors -/

/-- A result on the RFC 3161 path: TSA block populated, Rekor block zeroed. -/
def rEx1 : VerificationResult :=
  ⟨1700000000, .Rfc3161, [1, 2, 3], [9], .Sha256, [105], [115], [119], [114],
    [101], [7, 8], .Sha256, [12], 0, 0, 0⟩

/-- A result on the Rekor path: Rekor block populated, TSA block zeroed. -/
def rEx2 : VerificationResult :=
  ⟨1763454699, .Rekor, [1, 2], [9], .Sha384, [], [], [], [], [], [],
    .Unknown, [], 5, 585383802, 707288064⟩

/-- Parsing the canonical encoding of the Rekor example reproduces it. -/
theorem parse_encodeJournal_rEx2 :
    VerificationResultParser.parseVerificationResultBytes (encodeJournal rEx2)
      = .ok rEx2 := by
  unfold encodeJournal
  rw [parse_encodeJournalRaw rEx2.timestamp _ _ (by decide)
      (timestampProofTypeRaw_lt rEx2.timestampProofType) (by decide)
      (by decide),
    buildResult_abiTailOfResult]

/-- Raw tail with out-of-range digest-algorithm bytes (7 and 9). -/
def tAlgEx : AbiTail :=
  ⟨[1, 2], [9], 7, [], [], [], [], [], [], 9, [], 0, 0, 0⟩

/-- Raw tail with a single certificate hash (too short). -/
def tShortCert : AbiTail :=
  ⟨[7], [], 1, [], [], [], [], [], [], 1, [], 0, 0, 0⟩

/-- Raw tail that populates the TSA block although the header says Rekor. -/
def tMixed : AbiTail :=
  ⟨[1, 2], [], 0, [], [], [], [], [], [5], 1, [9], 0, 11, 12⟩

/-- A legacy (7-field) journal whose tuple holds a single certificate hash. -/
def legacyShortData : List Nat :=
  beBytes 8 0 ++ (List.replicate 32 0 ++
    encodeAbiTuple7 [7] [] [] [] [] [] [])

theorem legacyShortData_drop40 :
    legacyShortData.drop 40 = encodeAbiTuple7 [7] [] [] [] [] [] [] := by
  unfold legacyShortData
  rw [show (40 : Nat) = (beBytes 8 0).length + 32 from by rw [length_beBytes],
    List.drop_append]
  exact drop_length_append _ _ _ (List.length_replicate 32 0)

theorem legacyShortData_length : 40 ≤ legacyShortData.length := by
  unfold legacyShortData
  rw [List.length_append, List.length_append, length_beBytes,
    List.length_replicate]
  omega

/-! ### Claim theorems -/

/-- C1: round-trip of the journal encoding — for every well-typed
`VerificationResult` whose certificate-hash list has length at least 2
(its proof type being one of the three enum values 0, 1, 2), encoding it
with the reference byte layout of spec §6.4 and applying
`parseVerificationResultBytes` returns the same result in every field, on
every proof-type path. -/
theorem claim_C1_roundtrip (r : VerificationResult) (hwf : WFResult r)
    (hcert : 2 ≤ r.certificateHashes.length) :
    VerificationResultParser.parseVerificationResultBytes (encodeJournal r)
      = .ok r := by
  obtain ⟨hts, hwft⟩ := hwf
  unfold encodeJournal
  rw [parse_encodeJournalRaw r.timestamp _ _ hts
      (timestampProofTypeRaw_lt r.timestampProofType) hwft hcert,
    buildResult_abiTailOfResult]

theorem claim_C1_roundtrip_witness :
    WFResult rEx1 ∧ 2 ≤ rEx1.certificateHashes.length ∧
    WFResult rEx2 ∧ 2 ≤ rEx2.certificateHashes.length ∧
    VerificationResultParser.parseVerificationResultBytes (encodeJournal rEx1)
      = .ok rEx1 ∧
    VerificationResultParser.parseVerificationResultBytes (encodeJournal rEx2)
      = .ok rEx2 :=
  ⟨by decide, by decide, by decide, by decide,
    claim_C1_roundtrip rEx1 (by decide) (by decide),
    claim_C1_roundtrip rEx2 (by decide) (by decide)⟩

/-- C2: for every byte string of length at least 73, a successful parse
returns the big-endian value of bytes 0-7 as the timestamp and maps header
byte 8 (0/1/2) to the corresponding proof-type enum value, while a header
byte of 3 or more makes the call revert with `InvalidTimestampProofType`. -/
theorem claim_C2_header (data : List Nat) (hv : ValidBytes data)
    (hlen : 73 ≤ data.length) :
    (∀ r, VerificationResultParser.parseVerificationResultBytes data = .ok r →
      r.timestamp = beVal (data.take 8) ∧
      (data.getD 8 0 = 0 → r.timestampProofType = .None) ∧
      (data.getD 8 0 = 1 → r.timestampProofType = .Rfc3161) ∧
      (data.getD 8 0 = 2 → r.timestampProofType = .Rekor)) ∧
    (3 ≤ data.getD 8 0 →
      VerificationResultParser.parseVerificationResultBytes data
        = .error .invalidTimestampProofType) := by
  constructor
  · intro r h
    obtain ⟨-, ts, pt, t, hph, -, -, hr⟩ :=
      VerificationResultParser.parse_ok_elim data r h
    rw [VerificationResultParser._parseHeader_eq data hv (by omega)] at hph
    subst hr
    by_cases h0 : data.getD 8 0 = 0
    · rw [if_pos h0] at hph
      have hinj := Except.ok.inj hph
      rw [Prod.mk.injEq] at hinj
      obtain ⟨hts, hpt⟩ := hinj
      exact ⟨hts.symm, fun _ => hpt.symm,
        fun h1 => absurd (h0.symm.trans h1) (by decide),
        fun h2 => absurd (h0.symm.trans h2) (by decide)⟩
    · rw [if_neg h0] at hph
      by_cases h1 : data.getD 8 0 = 1
      · rw [if_pos h1] at hph
        have hinj := Except.ok.inj hph
        rw [Prod.mk.injEq] at hinj
        obtain ⟨hts, hpt⟩ := hinj
        exact ⟨hts.symm, fun h0b => absurd (h1.symm.trans h0b) (by decide),
          fun _ => hpt.symm,
          fun h2 => absurd (h1.symm.trans h2) (by decide)⟩
      · rw [if_neg h1] at hph
        by_cases h2 : data.getD 8 0 = 2
        · rw [if_pos h2] at hph
          have hinj := Except.ok.inj hph
          rw [Prod.mk.injEq] at hinj
          obtain ⟨hts, hpt⟩ := hinj
          exact ⟨hts.symm, fun h0b => absurd (h2.symm.trans h0b) (by decide),
            fun h1b => absurd (h2.symm.trans h1b) (by decide),
            fun _ => hpt.symm⟩
        · rw [if_neg h2] at hph
          exact absurd hph (by simp)
  · intro h3
    exact VerificationResultParser.parse_badProofType data hv hlen h3

theorem claim_C2_header_witness :
    VerificationResultParser.parseVerificationResultBytes
        (encodeJournalRaw 5 7 tAlgEx) = .error .invalidTimestampProofType :=
  (claim_C2_header (encodeJournalRaw 5 7 tAlgEx)
      (validBytes_encodeJournalRaw 5 7 tAlgEx (by decide) (by decide))
      (by rw [length_encodeJournalRaw]
          have := length_encodeAbiTuple_ge tAlgEx
          omega)).2
    (by rw [getD8_encodeJournalRaw]
        omega)

/-- C3: the non-header fields of a successfully parsed result are exactly
the 14 components that `abi.decode` yields on the suffix of the input from
byte offset 41, assigned in order to the struct fields (the two `uint8`
components through the digest-algorithm conversion). -/
theorem claim_C3_abiTail (data : List Nat) (r : VerificationResult)
    (t : AbiTail)
    (h : VerificationResultParser.parseVerificationResultBytes data = .ok r)
    (hdec : VerificationResultParser._decodeAbiData (data.drop 41) = some t) :
    r.certificateHashes = t.certHashes ∧
    r.subjectDigest = t.subjectDigest ∧
    r.subjectDigestAlgorithm
      = VerificationResultParser._toDigestAlgorithm t.subjectDigestAlgRaw ∧
    r.oidcIssuer = t.oidcIssuer ∧
    r.oidcSubject = t.oidcSubject ∧
    r.oidcWorkflowRef = t.oidcWorkflowRef ∧
    r.oidcRepository = t.oidcRepository ∧
    r.oidcEventName = t.oidcEventName ∧
    r.tsaChainHashes = t.tsaChainHashes ∧
    r.messageImprintAlgorithm
      = VerificationResultParser._toDigestAlgorithm t.messageImprintAlgRaw ∧
    r.messageImprint = t.messageImprint ∧
    r.rekorLogId = t.rekorLogId ∧
    r.rekorLogIndex = t.rekorLogIndex ∧
    r.rekorEntryIndex = t.rekorEntryIndex := by
  obtain ⟨-, ts, pt, u, -, hdec2, -, hr⟩ :=
    VerificationResultParser.parse_ok_elim data r h
  have hu : t = u := by
    have h1 : VerificationResultParser._decodeAbiData (data.drop 41)
        = some u := hdec2
    rw [h1] at hdec
    exact (Option.some.inj hdec).symm
  subst hu
  subst hr
  exact ⟨rfl, rfl, rfl, rfl, rfl, rfl, rfl, rfl, rfl, rfl, rfl, rfl, rfl, rfl⟩

/-- The parsed form of the `tAlgEx` journal with proof type 1. -/
def rC3 : VerificationResult :=
  VerificationResultParser.buildResult 5 .Rfc3161 tAlgEx

theorem claim_C3_abiTail_witness :
    rC3.certificateHashes = tAlgEx.certHashes ∧
    rC3.subjectDigest = tAlgEx.subjectDigest ∧
    rC3.subjectDigestAlgorithm
      = VerificationResultParser._toDigestAlgorithm tAlgEx.subjectDigestAlgRaw ∧
    rC3.oidcIssuer = tAlgEx.oidcIssuer ∧
    rC3.oidcSubject = tAlgEx.oidcSubject ∧
    rC3.oidcWorkflowRef = tAlgEx.oidcWorkflowRef ∧
    rC3.oidcRepository = tAlgEx.oidcRepository ∧
    rC3.oidcEventName = tAlgEx.oidcEventName ∧
    rC3.tsaChainHashes = tAlgEx.tsaChainHashes ∧
    rC3.messageImprintAlgorithm
      = VerificationResultParser._toDigestAlgorithm tAlgEx.messageImprintAlgRaw ∧
    rC3.messageImprint = tAlgEx.messageImprint ∧
    rC3.rekorLogId = tAlgEx.rekorLogId ∧
    rC3.rekorLogIndex = tAlgEx.rekorLogIndex ∧
    rC3.rekorEntryIndex = tAlgEx.rekorEntryIndex :=
  claim_C3_abiTail (encodeJournalRaw 5 1 tAlgEx) rC3 tAlgEx
    (parse_encodeJournalRaw 5 1 tAlgEx (by decide) (by decide) (by decide)
      (by decide))
    (by rw [show (encodeJournalRaw 5 1 tAlgEx).drop 41
          = encodeAbiTuple tAlgEx from
          _extractAbiData_encodeJournalRaw 5 1 tAlgEx]
        exact _decodeAbiData_encodeAbiTuple tAlgEx (by decide))

/-- C4: both the current and the legacy parser return successfully only
when the decoded certificate-hash array has length at least 2, and revert
with `InvalidCertificateHashesLength` whenever the decoded array is
shorter. -/
theorem claim_C4_minChain :
    (∀ data r, VerificationResultParser.parseVerificationResultBytes data
        = .ok r → 2 ≤ r.certificateHashes.length) ∧
    (∀ data ts pt t, 73 ≤ List.length data →
      VerificationResultParser._parseHeader data = .ok (ts, pt) →
      VerificationResultParser._decodeAbiData
        (VerificationResultParser._extractAbiData data) = some t →
      t.certHashes.length < 2 →
      VerificationResultParser.parseVerificationResultBytes data
        = .error .invalidCertificateHashesLength) ∧
    (∀ data r, LegacyVerificationResultParser.parseVerificationResultBytes
        data = .ok r → 2 ≤ r.certificateHashes.length) ∧
    (∀ data ch sd i s w rp e, 40 ≤ List.length data →
      LegacyVerificationResultParser._decodeAbiData (data.drop 40)
        = some (ch, sd, i, s, w, rp, e) → ch.length < 2 →
      LegacyVerificationResultParser.parseVerificationResultBytes data
        = .error .invalidCertificateHashesLength) := by
  refine ⟨?_, ?_, ?_, ?_⟩
  · intro data r h
    obtain ⟨-, ts, pt, t, -, -, hcl, hr⟩ :=
      VerificationResultParser.parse_ok_elim data r h
    subst hr
    exact hcl
  · intro data ts pt t h1 h2 h3 h4
    exact VerificationResultParser.parse_shortCert data ts pt t h1 h2 h3 h4
  · intro data r h
    exact (LegacyVerificationResultParser.legacy_parse_ok_elim data r h).2
  · intro data ch sd i s w rp e h1 h2 h3
    exact LegacyVerificationResultParser.legacy_parse_shortCert data
      ch sd i s w rp e h1 h2 h3

theorem claim_C4_minChain_witness :
    2 ≤ rC3.certificateHashes.length ∧
    VerificationResultParser.parseVerificationResultBytes
        (encodeJournalRaw 5 1 tShortCert)
      = .error .invalidCertificateHashesLength ∧
    LegacyVerificationResultParser.parseVerificationResultBytes
        legacyShortData
      = .error .invalidCertificateHashesLength :=
  ⟨claim_C4_minChain.1 (encodeJournalRaw 5 1 tAlgEx) rC3
      (parse_encodeJournalRaw 5 1 tAlgEx (by decide) (by decide) (by decide)
        (by decide)),
    claim_C4_minChain.2.1 (encodeJournalRaw 5 1 tShortCert) 5 .Rfc3161
      tShortCert
      (by rw [length_encodeJournalRaw]
          have := length_encodeAbiTuple_ge tShortCert
          omega)
      (_parseHeader_encodeJournalRaw3 5 1 tShortCert (by decide) (by decide))
      (by rw [_extractAbiData_encodeJournalRaw 5 1 tShortCert]
          exact _decodeAbiData_encodeAbiTuple tShortCert (by decide))
      (by decide),
    claim_C4_minChain.2.2.2 legacyShortData [7] [] [] [] [] [] []
      legacyShortData_length
      (by rw [legacyShortData_drop40]
          exact legacy_decodeAbiData_encodeAbiTuple7 [7] [] [] [] [] [] []
            (by decide) (by decide) (by decide) (by decide) (by decide)
            (by decide) (by decide) (by decide))
      (by decide)⟩

/-- The timestamp-block exclusivity invariant of spec §3: under the Rekor
proof type the RFC 3161 block is zeroed, and under the RFC 3161 proof type
the Rekor block is zeroed. -/
def ExclusiveBlocks (r : VerificationResult) : Prop :=
  (r.timestampProofType = .Rekor → r.tsaChainHashes = [] ∧
    r.messageImprintAlgorithm = .Unknown ∧ r.messageImprint = []) ∧
  (r.timestampProofType = .Rfc3161 → r.rekorLogId = 0 ∧
    r.rekorLogIndex = 0 ∧ r.rekorEntryIndex = 0)

instance (r : VerificationResult) : Decidable (ExclusiveBlocks r) := by
  unfold ExclusiveBlocks
  infer_instance

/-- C5 as stated is false: this journal declares proof type Rekor in its
header while its ABI tail populates the RFC 3161 block, and the parser
accepts it, returning the non-zero RFC 3161 fields unchanged. -/
theorem claim_C5_counterexample :
    VerificationResultParser.parseVerificationResultBytes
        (encodeJournalRaw 7 2 tMixed)
      = .ok (VerificationResultParser.buildResult 7 .Rekor tMixed) ∧
    (VerificationResultParser.buildResult 7 .Rekor tMixed).timestampProofType
      = .Rekor ∧
    (VerificationResultParser.buildResult 7 .Rekor tMixed).tsaChainHashes
      ≠ [] ∧
    (VerificationResultParser.buildResult 7 .Rekor
        tMixed).messageImprintAlgorithm ≠ .Unknown ∧
    (VerificationResultParser.buildResult 7 .Rekor tMixed).messageImprint
      ≠ [] ∧
    ¬ ExclusiveBlocks (VerificationResultParser.buildResult 7 .Rekor tMixed)
    := by
  refine ⟨?_, by decide, by decide, by decide, by decide, by decide⟩
  exact parse_encodeJournalRaw 7 2 tMixed (by decide) (by decide) (by decide)
    (by decide)

/-- C5 amended: the parser copies both timestamp blocks verbatim from the
ABI tail and does not itself enforce exclusivity; it preserves the
invariant — parsing the canonical encoding of a result whose unused block
is zeroed yields a result whose unused block is zeroed. -/
theorem claim_C5_amended (r r2 : VerificationResult) (hwf : WFResult r)
    (hcert : 2 ≤ r.certificateHashes.length) (hx : ExclusiveBlocks r)
    (h : VerificationResultParser.parseVerificationResultBytes
      (encodeJournal r) = .ok r2) :
    ExclusiveBlocks r2 := by
  obtain ⟨hts, hwft⟩ := hwf
  have hp : VerificationResultParser.parseVerificationResultBytes
      (encodeJournal r) = .ok r := by
    unfold encodeJournal
    rw [parse_encodeJournalRaw r.timestamp _ _ hts
        (timestampProofTypeRaw_lt r.timestampProofType) hwft hcert,
      buildResult_abiTailOfResult]
  rw [hp] at h
  exact (Except.ok.inj h) ▸ hx

theorem claim_C5_amended_witness : ExclusiveBlocks rEx2 :=
  claim_C5_amended rEx2 rEx2 (by decide) (by decide) (by decide)
    parse_encodeJournal_rEx2

/-- C6: the digest-algorithm fields of every parsed result lie in
{Unknown, Sha256, Sha384}; they are the images of the raw decoded `uint8`
components under `_toDigestAlgorithm`, which maps 1 to Sha256 and 2 to
Sha384. -/
theorem claim_C6_digestCodomain (data : List Nat) (r : VerificationResult)
    (t : AbiTail)
    (h : VerificationResultParser.parseVerificationResultBytes data = .ok r)
    (hdec : VerificationResultParser._decodeAbiData (data.drop 41) = some t) :
    r.subjectDigestAlgorithm
      = VerificationResultParser._toDigestAlgorithm t.subjectDigestAlgRaw ∧
    r.messageImprintAlgorithm
      = VerificationResultParser._toDigestAlgorithm t.messageImprintAlgRaw ∧
    (t.subjectDigestAlgRaw = 1 → r.subjectDigestAlgorithm = .Sha256) ∧
    (t.subjectDigestAlgRaw = 2 → r.subjectDigestAlgorithm = .Sha384) ∧
    (t.messageImprintAlgRaw = 1 → r.messageImprintAlgorithm = .Sha256) ∧
    (t.messageImprintAlgRaw = 2 → r.messageImprintAlgorithm = .Sha384) ∧
    (r.subjectDigestAlgorithm = .Unknown ∨ r.subjectDigestAlgorithm = .Sha256
      ∨ r.subjectDigestAlgorithm = .Sha384) ∧
    (r.messageImprintAlgorithm = .Unknown ∨
      r.messageImprintAlgorithm = .Sha256 ∨
      r.messageImprintAlgorithm = .Sha384) := by
  have hall : ∀ d : DigestAlgorithm,
      d = .Unknown ∨ d = .Sha256 ∨ d = .Sha384 := by
    intro d
    cases d
    · exact Or.inl rfl
    · exact Or.inr (Or.inl rfl)
    · exact Or.inr (Or.inr rfl)
  obtain ⟨-, ts, pt, u, -, hdec2, -, hr⟩ :=
    VerificationResultParser.parse_ok_elim data r h
  have hu : t = u := by
    have h1 : VerificationResultParser._decodeAbiData (data.drop 41)
        = some u := hdec2
    rw [h1] at hdec
    exact (Option.some.inj hdec).symm
  subst hu
  subst hr
  refine ⟨rfl, rfl, ?_, ?_, ?_, ?_, hall _, hall _⟩
  · intro h1
    show VerificationResultParser._toDigestAlgorithm t.subjectDigestAlgRaw
      = DigestAlgorithm.Sha256
    rw [h1]
    rfl
  · intro h2
    show VerificationResultParser._toDigestAlgorithm t.subjectDigestAlgRaw
      = DigestAlgorithm.Sha384
    rw [h2]
    rfl
  · intro h1
    show VerificationResultParser._toDigestAlgorithm t.messageImprintAlgRaw
      = DigestAlgorithm.Sha256
    rw [h1]
    rfl
  · intro h2
    show VerificationResultParser._toDigestAlgorithm t.messageImprintAlgRaw
      = DigestAlgorithm.Sha384
    rw [h2]
    rfl

theorem claim_C6_digestCodomain_witness :
    rC3.subjectDigestAlgorithm
      = VerificationResultParser._toDigestAlgorithm tAlgEx.subjectDigestAlgRaw ∧
    rC3.messageImprintAlgorithm
      = VerificationResultParser._toDigestAlgorithm tAlgEx.messageImprintAlgRaw ∧
    (tAlgEx.subjectDigestAlgRaw = 1 → rC3.subjectDigestAlgorithm = .Sha256) ∧
    (tAlgEx.subjectDigestAlgRaw = 2 → rC3.subjectDigestAlgorithm = .Sha384) ∧
    (tAlgEx.messageImprintAlgRaw = 1 →
      rC3.messageImprintAlgorithm = .Sha256) ∧
    (tAlgEx.messageImprintAlgRaw = 2 →
      rC3.messageImprintAlgorithm = .Sha384) ∧
    (rC3.subjectDigestAlgorithm = .Unknown ∨
      rC3.subjectDigestAlgorithm = .Sha256 ∨
      rC3.subjectDigestAlgorithm = .Sha384) ∧
    (rC3.messageImprintAlgorithm = .Unknown ∨
      rC3.messageImprintAlgorithm = .Sha256 ∨
      rC3.messageImprintAlgorithm = .Sha384) :=
  claim_C6_digestCodomain (encodeJournalRaw 5 1 tAlgEx) rC3 tAlgEx
    (by decide) (by decide)

namespace SigstoreAttestationVerifier

/-- C7: every failure of `verifyAndAttestWithZKProof` — co-processor type
`None`, unconfigured verifier address or program identifier, a failing ZK
proof verification call, or a journal-parse failure — reverts the whole
call; a successful call leaves storage unchanged, emits exactly the
`AttestationSubmitted` event, and returns the parsed journal. -/
theorem claim_C7_failureAtomicity (st : VerifierState) (output : List Nat)
    (zk : ZkCoProcessorType) (zkProofOk : Bool) :
    (zk = .None → verifyAndAttestWithZKProof st output zk zkProofOk
      = .error .invalidZkCoProcessorType) ∧
    (zk ≠ .None → (st.zkConfig zk).zkVerifier = 0 →
      verifyAndAttestWithZKProof st output zk zkProofOk
        = .error .missingZkVerifier) ∧
    (zk ≠ .None → (st.zkConfig zk).zkVerifier ≠ 0 →
      (st.zkConfig zk).programIdentifier = 0 →
      verifyAndAttestWithZKProof st output zk zkProofOk
        = .error .missingZkProgramId) ∧
    (zk ≠ .None → (st.zkConfig zk).zkVerifier ≠ 0 →
      (st.zkConfig zk).programIdentifier ≠ 0 → zkProofOk = false →
      verifyAndAttestWithZKProof st output zk zkProofOk
        = .error .zkProofVerificationFailed) ∧
    (∀ e, zk ≠ .None → (st.zkConfig zk).zkVerifier ≠ 0 →
      (st.zkConfig zk).programIdentifier ≠ 0 → zkProofOk = true →
      VerificationResultParser.parseVerificationResultBytes output
        = .error e →
      verifyAndAttestWithZKProof st output zk zkProofOk
        = .error (.parseFailed e)) ∧
    (∀ st2 evs r, verifyAndAttestWithZKProof st output zk zkProofOk
        = .ok (st2, evs, r) →
      st2 = st ∧ evs = [.AttestationSubmitted zk output] ∧
      VerificationResultParser.parseVerificationResultBytes output
        = .ok r) := by
  refine ⟨?_, ?_, ?_, ?_, ?_, ?_⟩
  · intro h
    subst h
    exact verify_none st output zkProofOk
  · intro hzk h0
    rw [verify_notNone st output zk zkProofOk hzk, if_pos h0]
  · intro hzk h0 h1
    rw [verify_notNone st output zk zkProofOk hzk, if_neg h0, if_pos h1]
  · intro hzk h0 h1 hb
    rw [verify_notNone st output zk zkProofOk hzk, if_neg h0, if_neg h1,
      if_pos hb]
  · intro e hzk h0 h1 hb hpe
    rw [verify_notNone st output zk zkProofOk hzk, if_neg h0, if_neg h1,
      if_neg (by rw [hb]; decide), hpe]
  · intro st2 evs r h
    by_cases hzk : zk = .None
    · subst hzk
      rw [verify_none st output zkProofOk] at h
      exact absurd h (by simp)
    · rw [verify_notNone st output zk zkProofOk hzk] at h
      by_cases h0 : (st.zkConfig zk).zkVerifier = 0
      · rw [if_pos h0] at h
        exact absurd h (by simp)
      · rw [if_neg h0] at h
        by_cases h1 : (st.zkConfig zk).programIdentifier = 0
        · rw [if_pos h1] at h
          exact absurd h (by simp)
        · rw [if_neg h1] at h
          by_cases hb : zkProofOk = false
          · rw [if_pos hb] at h
            exact absurd h (by simp)
          · rw [if_neg hb] at h
            cases hp : VerificationResultParser.parseVerificationResultBytes
                output with
            | error e =>
                rw [hp] at h
                exact absurd h (by simp)
            | ok r0 =>
                rw [hp] at h
                have hinj := Except.ok.inj h
                rw [Prod.mk.injEq, Prod.mk.injEq] at hinj
                obtain ⟨hst, hev, hr⟩ := hinj
                exact ⟨hst.symm, hev.symm, congrArg Except.ok hr⟩

end SigstoreAttestationVerifier

/-- A deployed contract state with owner 1 and a RiscZero configuration. -/
def stEx : VerifierState :=
  ⟨1, fun ty => if ty = .RiscZero then ⟨2, 3⟩ else ⟨0, 0⟩⟩

theorem claim_C7_failureAtomicity_witness :
    SigstoreAttestationVerifier.verifyAndAttestWithZKProof stEx [] .None true
      = .error .invalidZkCoProcessorType ∧
    SigstoreAttestationVerifier.verifyAndAttestWithZKProof stEx []
        .Succinct true = .error .missingZkVerifier ∧
    SigstoreAttestationVerifier.verifyAndAttestWithZKProof stEx []
        .RiscZero false = .error .zkProofVerificationFailed ∧
    SigstoreAttestationVerifier.verifyAndAttestWithZKProof stEx []
        .RiscZero true = .error (.parseFailed .invalidDataLength) :=
  ⟨(SigstoreAttestationVerifier.claim_C7_failureAtomicity stEx [] .None
      true).1 rfl,
    (SigstoreAttestationVerifier.claim_C7_failureAtomicity stEx [] .Succinct
      true).2.1 (by decide) (by decide),
    (SigstoreAttestationVerifier.claim_C7_failureAtomicity stEx [] .RiscZero
      false).2.2.2.1 (by decide) (by decide) (by decide) rfl,
    (SigstoreAttestationVerifier.claim_C7_failureAtomicity stEx [] .RiscZero
      true).2.2.2.2.1 .invalidDataLength (by decide) (by decide) (by decide)
      rfl (by decide)⟩

/-- C8 as stated is false: on this 74-byte input the length guard passes
(74 ≥ 73) but `74 - 41 = 33` is not a multiple of 32, so the copy loop of
`_extractAbiData` — which exits only at a counter of exactly zero and
decrements with wrapping `sub` — never terminates; it is still running
after two iterations, and its third 32-byte read already ends past the
input buffer extended by its 32-byte padding. The function is therefore
not total up to its explicit reverts. -/
theorem claim_C8_counterexample :
    73 ≤ (List.replicate 74 (0 : Nat)).length ∧
    ((List.replicate 74 (0 : Nat)).length - 41) % 32 ≠ 0 ∧
    ¬ VerificationResultParser.copyLoopTerminates
        ((List.replicate 74 (0 : Nat)).length - 41) ∧
    VerificationResultParser.copyLoopSteps 2
        ((List.replicate 74 (0 : Nat)).length - 41) = none ∧
    (List.replicate 74 (0 : Nat)).length + 32 < 41 + 32 * 2 + 32 :=
  ⟨by decide, by decide,
    VerificationResultParser.copyLoop_not_terminates _ (by decide)
      (by decide),
    by decide, by decide⟩

/-- C8 (amended): inputs shorter than 73 bytes revert with
`InvalidDataLength`; for length at least 73 the subtraction
`data.length - 41` cannot underflow and the 32-byte header load lies
inside the buffer, but the copy loop of `_extractAbiData` terminates only
when `data.length - 41` is a multiple of 32 — as in every canonical
journal, an ABI tuple encoding being a whole number of words — and then
runs one iteration per 32-byte chunk with every read inside the input
buffer; on a misaligned length the wrapping loop counter never reaches
zero and the loop runs unboundedly (until out of gas). -/
theorem claim_C8_lengthGuard (data : List Nat) (k f : Nat)
    (hbound : data.length < 2 ^ 256) :
    (data.length < 73 →
      VerificationResultParser.parseVerificationResultBytes data
        = .error .invalidDataLength) ∧
    (73 ≤ data.length → 41 ≤ data.length ∧ 32 ≤ data.length) ∧
    (73 ≤ data.length → (data.length - 41) % 32 = 0 →
      VerificationResultParser.copyLoopSteps ((data.length - 41) / 32)
          (data.length - 41) = some ((data.length - 41) / 32) ∧
      (k < (data.length - 41) / 32 → 41 + 32 * k + 32 ≤ data.length)) ∧
    ((data.length - 41) % 32 ≠ 0 →
      VerificationResultParser.copyLoopSteps f (data.length - 41)
        = none) := by
  refine ⟨?_, ?_, ?_, ?_⟩
  · intro h
    unfold VerificationResultParser.parseVerificationResultBytes
    rw [if_pos h]
  · intro h
    exact ⟨by omega, by omega⟩
  · intro h hal
    constructor
    · set q := (data.length - 41) / 32 with hq
      have he : data.length - 41 = 32 * q := by omega
      rw [he]
      exact VerificationResultParser.copyLoopSteps_aligned q (by omega)
    · intro hk
      omega
  · intro hm
    exact VerificationResultParser.copyLoopSteps_misaligned f _ (by omega) hm

theorem claim_C8_lengthGuard_witness :
    VerificationResultParser.parseVerificationResultBytes [0]
      = .error .invalidDataLength ∧
    (41 ≤ (List.replicate 73 (0 : Nat)).length ∧
      32 ≤ (List.replicate 73 (0 : Nat)).length) ∧
    (VerificationResultParser.copyLoopSteps
        (((List.replicate 73 (0 : Nat)).length - 41) / 32)
        ((List.replicate 73 (0 : Nat)).length - 41)
      = some (((List.replicate 73 (0 : Nat)).length - 41) / 32) ∧
      (0 < ((List.replicate 73 (0 : Nat)).length - 41) / 32 →
        41 + 32 * 0 + 32 ≤ (List.replicate 73 (0 : Nat)).length)) ∧
    VerificationResultParser.copyLoopSteps 5
        ((List.replicate 74 (0 : Nat)).length - 41) = none :=
  ⟨(claim_C8_lengthGuard [0] 0 0 (by decide)).1 (by decide),
    (claim_C8_lengthGuard (List.replicate 73 0) 0 0 (by decide)).2.1
      (by decide),
    (claim_C8_lengthGuard (List.replicate 73 0) 0 0 (by decide)).2.2.1
      (by decide) (by decide),
    (claim_C8_lengthGuard (List.replicate 74 0) 0 5 (by decide)).2.2.2
      (by decide)⟩

/-- C9: a raw digest-algorithm byte other than 1 or 2 in an otherwise
well-formed ABI tail does not make the parser revert — the corresponding
field comes back as `Unknown` — whereas a proof-type byte of 3 or more in
the header reverts with `InvalidTimestampProofType`. -/
theorem claim_C9_silentDigest (ts pt v w pt2 : Nat) (t : AbiTail)
    (hts : ts < 2 ^ 64) (hpt : pt < 3) (hwf : WFAbiTail t)
    (hcert : 2 ≤ t.certHashes.length)
    (hsdv : t.subjectDigestAlgRaw = v) (hmiw : t.messageImprintAlgRaw = w)
    (hv1 : v ≠ 1) (hv2 : v ≠ 2) (hw1 : w ≠ 1) (hw2 : w ≠ 2)
    (h3 : 3 ≤ pt2) (h256 : pt2 < 256) :
    VerificationResultParser._toDigestAlgorithm v = .Unknown ∧
    VerificationResultParser._toDigestAlgorithm w = .Unknown ∧
    VerificationResultParser.parseVerificationResultBytes
        (encodeJournalRaw ts pt t)
      = .ok (VerificationResultParser.buildResult ts (rawProofType pt) t) ∧
    (VerificationResultParser.buildResult ts (rawProofType pt)
        t).subjectDigestAlgorithm = .Unknown ∧
    (VerificationResultParser.buildResult ts (rawProofType pt)
        t).messageImprintAlgorithm = .Unknown ∧
    VerificationResultParser.parseVerificationResultBytes
        (encodeJournalRaw ts pt2 t) = .error .invalidTimestampProofType := by
  have hvu : VerificationResultParser._toDigestAlgorithm v = .Unknown := by
    unfold VerificationResultParser._toDigestAlgorithm
    rw [if_neg hv1, if_neg hv2]
  have hwu : VerificationResultParser._toDigestAlgorithm w = .Unknown := by
    unfold VerificationResultParser._toDigestAlgorithm
    rw [if_neg hw1, if_neg hw2]
  refine ⟨hvu, hwu, parse_encodeJournalRaw ts pt t hts hpt hwf hcert,
    ?_, ?_, parse_encodeJournalRaw_badType ts pt2 t hts h3 h256⟩
  · show VerificationResultParser._toDigestAlgorithm t.subjectDigestAlgRaw
      = DigestAlgorithm.Unknown
    rw [hsdv]
    exact hvu
  · show VerificationResultParser._toDigestAlgorithm t.messageImprintAlgRaw
      = DigestAlgorithm.Unknown
    rw [hmiw]
    exact hwu

theorem claim_C9_silentDigest_witness :
    VerificationResultParser._toDigestAlgorithm 7 = .Unknown ∧
    VerificationResultParser._toDigestAlgorithm 9 = .Unknown ∧
    VerificationResultParser.parseVerificationResultBytes
        (encodeJournalRaw 5 2 tAlgEx)
      = .ok (VerificationResultParser.buildResult 5 (rawProofType 2)
        tAlgEx) ∧
    (VerificationResultParser.buildResult 5 (rawProofType 2)
        tAlgEx).subjectDigestAlgorithm = .Unknown ∧
    (VerificationResultParser.buildResult 5 (rawProofType 2)
        tAlgEx).messageImprintAlgorithm = .Unknown ∧
    VerificationResultParser.parseVerificationResultBytes
        (encodeJournalRaw 5 200 tAlgEx)
      = .error .invalidTimestampProofType :=
  claim_C9_silentDigest 5 2 7 9 200 tAlgEx (by decide) (by decide)
    (by decide) (by decide) (by decide) (by decide) (by decide) (by decide)
    (by decide) (by decide) (by decide) (by decide)

namespace SigstoreAttestationVerifier

/-- C10: `setZkCoProcessorConfig` reverts for any caller other than the
owner and for co-processor type `None`; hence in every reachable state the
configuration slot for `None` holds the zero program identifier and zero
verifier address, and every successful `verifyAndAttestWithZKProof` call
runs with a nonzero program identifier and a nonzero verifier address. -/
theorem claim_C10_configInvariant (st : VerifierState) (sender : Nat)
    (ty : ZkCoProcessorType) (pid ver : Nat) (output : List Nat)
    (zk : ZkCoProcessorType) (zkProofOk : Bool) (st2 : VerifierState)
    (evs : List VerifierEvent) (r : VerificationResult) :
    (sender ≠ st.owner →
      setZkCoProcessorConfig st sender ty pid ver = .error .unauthorized) ∧
    (sender = st.owner → ty = .None →
      setZkCoProcessorConfig st sender ty pid ver
        = .error .invalidZkCoProcessorType) ∧
    (Reachable st → st.zkConfig .None = ⟨0, 0⟩) ∧
    (Reachable st →
      verifyAndAttestWithZKProof st output zk zkProofOk
        = .ok (st2, evs, r) →
      (st.zkConfig zk).programIdentifier ≠ 0 ∧
      (st.zkConfig zk).zkVerifier ≠ 0) := by
  refine ⟨?_, ?_, ?_, ?_⟩
  · intro h
    unfold setZkCoProcessorConfig
    rw [if_pos h]
  · intro hs hty
    unfold setZkCoProcessorConfig _noneZkConfigCheck
    rw [if_neg (by simp [hs]), if_pos hty]
  · intro h
    exact reachable_none_config st h
  · intro hreach h
    by_cases hzk : zk = .None
    · subst hzk
      rw [verify_none st output zkProofOk] at h
      exact absurd h (by simp)
    · rw [verify_notNone st output zk zkProofOk hzk] at h
      by_cases h0 : (st.zkConfig zk).zkVerifier = 0
      · rw [if_pos h0] at h
        exact absurd h (by simp)
      · rw [if_neg h0] at h
        by_cases h1 : (st.zkConfig zk).programIdentifier = 0
        · rw [if_pos h1] at h
          exact absurd h (by simp)
        · exact ⟨h1, h0⟩

end SigstoreAttestationVerifier

/-- The freshly deployed state: owner 1, all configuration slots zero. -/
def stDep : VerifierState := ⟨1, fun _ => ⟨0, 0⟩⟩

theorem stEx_reachable : SigstoreAttestationVerifier.Reachable stEx := by
  refine SigstoreAttestationVerifier.Reachable.configured stDep stEx 1
    .RiscZero 2 3 [.ZkCoProcessorUpdated .RiscZero 2 3]
    (SigstoreAttestationVerifier.Reachable.deployed 1) ?_
  rfl

theorem verify_stEx_ok :
    SigstoreAttestationVerifier.verifyAndAttestWithZKProof stEx
        (encodeJournal rEx2) .RiscZero true
      = .ok (stEx,
        [.AttestationSubmitted .RiscZero (encodeJournal rEx2)], rEx2) := by
  rw [SigstoreAttestationVerifier.verify_notNone _ _ _ _ (by decide),
    if_neg (by decide), if_neg (by decide),
    if_neg (by decide),
    parse_encodeJournal_rEx2]

theorem claim_C10_configInvariant_witness :
    SigstoreAttestationVerifier.setZkCoProcessorConfig stDep 2 .RiscZero 2 3
      = .error .unauthorized ∧
    SigstoreAttestationVerifier.setZkCoProcessorConfig stDep 1 .None 2 3
      = .error .invalidZkCoProcessorType ∧
    stEx.zkConfig .None = ⟨0, 0⟩ ∧
    ((stEx.zkConfig .RiscZero).programIdentifier ≠ 0 ∧
      (stEx.zkConfig .RiscZero).zkVerifier ≠ 0) :=
  ⟨(SigstoreAttestationVerifier.claim_C10_configInvariant stDep 2 .RiscZero
      2 3 [] .None true stDep [] rEx2).1 (by decide),
    (SigstoreAttestationVerifier.claim_C10_configInvariant stDep 1 .None
      2 3 [] .None true stDep [] rEx2).2.1 rfl rfl,
    (SigstoreAttestationVerifier.claim_C10_configInvariant stEx 0 .None
      0 0 [] .None true stEx [] rEx2).2.2.1 stEx_reachable,
    (SigstoreAttestationVerifier.claim_C10_configInvariant stEx 0 .None 0 0
      (encodeJournal rEx2) .RiscZero true stEx
      [.AttestationSubmitted .RiscZero (encodeJournal rEx2)]
      rEx2).2.2.2 stEx_reachable verify_stEx_ok⟩

end SigstoreVerifier
